import Mathlib

/-!
Verification of the tile-parsing and mosaic-assembly core of `convert_fgd_dem`
(`src/convert_fgd_dem/dem.py` and `src/convert_fgd_dem/converter.py`).

The Python code is shallowly embedded: Python `float` values are modelled as
exact rationals (`ℚ`), Python `int` as `ℤ`, numpy 2-D arrays as `List (List ℚ)`,
strings as `List Char`, and each raise site of the code as a constructor of
`PyErr`; fallible code returns `Except PyErr α`.
-/

set_option maxHeartbeats 1000000
set_option maxRecDepth 8000

attribute [local semireducible] Rat.add Rat.mul Rat.inv Rat.sub Rat.ofScientific

namespace ConvertFgdDem

/-- Text is modelled as a list of characters (Python `str`). -/
abbrev Str := List Char

/-- The failure modes of the embedded code.  `incorrectXml`, `incorrectMeshCode`
and `mixedMeshFormat` are the three `DemInputXmlException` raise sites of
`dem.py`; `imageSizeTooLarge` is the `Exception("Image size is too large…")`
raise of `converter.py`; the remaining constructors model Python built-in
exceptions escaping uncaught (`ValueError`, `IndexError`, `ZeroDivisionError`). -/
inductive PyErr where
  | incorrectXml : PyErr
  | incorrectMeshCode : ℤ → PyErr
  | mixedMeshFormat : PyErr
  | imageSizeTooLarge : ℤ → ℤ → PyErr
  | valueError : PyErr
  | indexError : PyErr
  | zeroDivisionError : PyErr
deriving DecidableEq, Repr

/-- Equality of embedded results is decidable. -/
instance {ε α : Type} [DecidableEq ε] [DecidableEq α] : DecidableEq (Except ε α)
  | .ok a, .ok b =>
    if h : a = b then .isTrue (by rw [h]) else .isFalse (by simp [h])
  | .ok _, .error _ => .isFalse (by simp)
  | .error _, .ok _ => .isFalse (by simp)
  | .error e, .error f =>
    if h : e = f then .isTrue (by rw [h]) else .isFalse (by simp [h])

/-- Python 3 `round` on an exact value: round half to even, returning an `Int`. -/
def pyRound (q : ℚ) : ℤ :=
  let f : ℤ := ⌊q⌋
  let r : ℚ := q - f
  if r < 1/2 then f
  else if 1/2 < r then f + 1
  else if f % 2 = 0 then f else f + 1

/-- The characters removed by Python `str.strip()`. -/
def isPySpace (c : Char) : Bool :=
  decide (c = ' ' ∨ c = '\t' ∨ c = '\n' ∨ c = '\r' ∨ c = '\x0b' ∨ c = '\x0c')

/-- A decimal digit character. -/
def isDigitB (c : Char) : Bool :=
  decide ('0' ≤ c ∧ c ≤ '9')

/-- Drop the longest prefix of characters satisfying `p`. -/
def dropWhileB (p : Char → Bool) : Str → Str
  | [] => []
  | c :: cs => if p c then dropWhileB p cs else c :: cs

/-- Take the longest prefix of characters satisfying `p`. -/
def takeWhileB (p : Char → Bool) : Str → Str
  | [] => []
  | c :: cs => if p c then c :: takeWhileB p cs else []

/-- Whether every character is a decimal digit. -/
def allDigits : Str → Bool
  | [] => true
  | c :: cs => isDigitB c && allDigits cs

/-- Python `s.strip()`: drop leading and trailing whitespace. -/
def pyStrip (s : Str) : Str :=
  ((dropWhileB isPySpace s).reverse |> dropWhileB isPySpace).reverse

/-- Python `s.split(sep)` for a single-character separator: always returns at
least one piece, and consecutive separators yield empty pieces. -/
def splitOnChar (sep : Char) : Str → List Str
  | [] => [[]]
  | c :: cs =>
    let r := splitOnChar sep cs
    if c = sep then [] :: r
    else (c :: r.headD []) :: r.tail

/-- Python `l[i]` read access: a negative index counts from the end and an
index out of range is an `IndexError` (`none`). -/
def pyGetL {α : Type} (l : List α) (i : ℤ) : Option α :=
  if 0 ≤ i then l[i.toNat]?
  else if 0 ≤ i + l.length then l[(i + l.length).toNat]?
  else none

/-- Python `l[i] = v` item assignment, with the same index convention as
`pyGetL`; `none` is an `IndexError`. -/
def pySetL {α : Type} (l : List α) (i : ℤ) (v : α) : Option (List α) :=
  if 0 ≤ i then (if i < l.length then some (l.set i.toNat v) else none)
  else if 0 ≤ i + l.length then some (l.set (i + l.length).toNat v)
  else none

/-- The value of one decimal digit character (zero for a non-digit). -/
def digitVal (c : Char) : ℕ :=
  if c = '1' then 1 else if c = '2' then 2 else if c = '3' then 3
  else if c = '4' then 4 else if c = '5' then 5 else if c = '6' then 6
  else if c = '7' then 7 else if c = '8' then 8 else if c = '9' then 9 else 0

/-- Numeric value of a list of decimal digits, accumulated left to right. -/
def digitsValFrom (acc : ℕ) : Str → ℕ
  | [] => acc
  | c :: cs => digitsValFrom (10 * acc + digitVal c) cs

/-- Numeric value of a list of decimal digits. -/
def digitsVal (cs : Str) : ℕ :=
  digitsValFrom 0 cs

/-- Strip an optional leading sign, returning the sign factor and the rest. -/
def splitSign (t : Str) : ℤ × Str :=
  match t with
  | [] => (1, [])
  | c :: r => if c = '-' then (-1, r) else if c = '+' then (1, r) else (1, c :: r)

/-- Python `float(s)` on the plain decimal forms used by the DEM data
(optional surrounding whitespace, optional sign, digits with an optional
fractional part, at least one digit); other texts fail (`ValueError`). -/
def pyFloat? (s : Str) : Option ℚ :=
  let t := pyStrip s
  let sg := splitSign t
  let t₁ := sg.2
  let intPart := takeWhileB isDigitB t₁
  let rest := dropWhileB isDigitB t₁
  match rest with
  | [] =>
    if intPart = [] then none
    else some ((sg.1 : ℚ) * digitsVal intPart)
  | c :: frac =>
    if c = '.' then
      let fracPart := takeWhileB isDigitB frac
      if dropWhileB isDigitB frac = [] then
        if intPart = [] ∧ fracPart = [] then none
        else some ((sg.1 : ℚ) * ((digitsVal intPart : ℚ) +
          (digitsVal fracPart : ℚ) / (10 : ℚ) ^ fracPart.length))
      else none
    else none

/-- Python `int(s)`: optional surrounding whitespace, optional sign, one or
more decimal digits. -/
def pyInt? (s : Str) : Option ℤ :=
  let t := pyStrip s
  let sg := splitSign t
  let t₁ := sg.2
  if t₁ = [] then none
  else if allDigits t₁ then some (sg.1 * digitsVal t₁)
  else none

/-- Python `len(str(m))` for an integer `m`: its decimal digit count, plus one
for the sign of a negative number. -/
def pyLenStr (m : ℤ) : ℕ :=
  if m < 0 then (Nat.toDigits 10 (-m).toNat).length + 1
  else (Nat.toDigits 10 m.toNat).length

/-- A latitude/longitude pair in degrees (the `{"lat": …, "lon": …}` dicts). -/
structure LatLon where
  lat : ℚ
  lon : ℚ
deriving DecidableEq, Repr

/-- An integer `{"x": …, "y": …}` pair (grid lengths and start points). -/
structure XYInt where
  x : ℤ
  y : ℤ
deriving DecidableEq, Repr

/-- The per-tile `{"x": …, "y": …}` pixel size in degrees. -/
structure PixelSize where
  x : ℚ
  y : ℚ
deriving DecidableEq, Repr

/-- The formatted metadata of one tile (`Dem._format_metadata`'s result dict). -/
structure MetaData where
  mesh_code : ℤ
  lower_corner : LatLon
  upper_corner : LatLon
  grid_length : XYInt
  start_point : XYInt
  pixel_size : PixelSize
deriving DecidableEq, Repr

/-- The raw textual metadata extracted from one XML tile document
(`raw_metadata` in `Dem.get_xml_content`; the mesh code was already converted
by `int(…)` at extraction time). -/
structure RawMetadata where
  mesh_code : ℤ
  lower_corner : Str
  upper_corner : Str
  grid_length : Str
  start_point : Str
deriving DecidableEq, Repr

/-- The geographic bounding box of the batch (`Dem.bounds_latlng`). -/
structure BoundsLatLng where
  lower_left : LatLon
  upper_right : LatLon
deriving DecidableEq, Repr

/-- One tile's mesh code together with its elevation array
(an entry of `Dem.np_array_list`). -/
structure NpEntry where
  mesh_code : ℤ
  np_array : List (List ℚ)
deriving DecidableEq, Repr

/-- One tile's parsed content (an entry of `Dem.all_content_list`): mesh code,
formatted metadata and the flat list of elevation value strings. -/
structure Content where
  mesh_code : ℤ
  meta_data : MetaData
  elevation_items : List Str
deriving DecidableEq, Repr

/-- A combined entry of `Converter._combine_meta_data_and_contents`: the
metadata dict updated with the mesh code and numpy array of the content dict. -/
structure MeshData where
  mesh_code : ℤ
  lower_corner : LatLon
  upper_corner : LatLon
  grid_length : XYInt
  start_point : XYInt
  pixel_size : PixelSize
  np_array : List (List ℚ)
deriving DecidableEq, Repr

/-- The state of the `Dem` object consumed by `Converter.make_data_for_geotiff`
(after `contents_to_array` has populated it). -/
structure DemState where
  bounds_latlng : BoundsLatLng
  meta_data_list : List MetaData
  np_array_list : List NpEntry
deriving DecidableEq, Repr

/-- The value of `make_data_for_geotiff`: the six-element geo-transform list,
the assembled array and the mosaic pixel dimensions (the output path carried by
the Python tuple is dropped). -/
structure GeoData where
  geo_transform : List ℚ
  dem_array : List (List ℚ)
  x_length : ℤ
  y_length : ℤ
deriving DecidableEq, Repr

/-- Cell access for the 2-D array model: `arr[r][c]`, defaulting to the no-data
sentinel when out of range (the theorems only use in-range indices). -/
def cellOf (arr : List (List ℚ)) (r c : ℕ) : ℚ :=
  (arr.getD r []).getD c (-9999)

/-- `l[i]` for a literal non-negative index, as an `Except` (`IndexError`). -/
def pyIndex {α : Type} (l : List α) (i : ℕ) : Except PyErr α :=
  match l[i]? with
  | some a => .ok a
  | none => .error .indexError

/-- `float(s)` as an `Except` (`ValueError` on failure). -/
def pyFloatE (s : Str) : Except PyErr ℚ :=
  match pyFloat? s with
  | some q => .ok q
  | none => .error .valueError

/-- `int(s)` as an `Except` (`ValueError` on failure). -/
def pyIntE (s : Str) : Except PyErr ℤ :=
  match pyInt? s with
  | some z => .ok z
  | none => .error .valueError

/-- Python division of exact values: `ZeroDivisionError` on a zero divisor. -/
def pyDivQ (a b : ℚ) : Except PyErr ℚ :=
  if b = 0 then .error .zeroDivisionError else .ok (a / b)

/-- `Dem._format_metadata`: split the corner / grid / start-point strings on a
single space, convert with `float` / `int`, add one to each grid high index and
derive the per-tile pixel size. -/
def formatMetadata (raw : RawMetadata) : Except PyErr MetaData := do
  let lowers := splitOnChar ' ' raw.lower_corner
  let llat ← pyFloatE (← pyIndex lowers 0)
  let llon ← pyFloatE (← pyIndex lowers 1)
  let uppers := splitOnChar ' ' raw.upper_corner
  let ulat ← pyFloatE (← pyIndex uppers 0)
  let ulon ← pyFloatE (← pyIndex uppers 1)
  let grids := splitOnChar ' ' raw.grid_length
  let gx ← pyIntE (← pyIndex grids 0)
  let gy ← pyIntE (← pyIndex grids 1)
  let sps := splitOnChar ' ' raw.start_point
  let sx ← pyIntE (← pyIndex sps 0)
  let sy ← pyIntE (← pyIndex sps 1)
  let glx := gx + 1
  let gly := gy + 1
  let psx ← pyDivQ (ulon - llon) (glx : ℚ)
  let psy ← pyDivQ (llat - ulat) (gly : ℚ)
  return { mesh_code := raw.mesh_code
           lower_corner := ⟨llat, llon⟩
           upper_corner := ⟨ulat, ulon⟩
           grid_length := ⟨glx, gly⟩
           start_point := ⟨sx, sy⟩
           pixel_size := ⟨psx, psy⟩ }

/-- The literal sea-surface and sea-floor category labels of the source. -/
def seaLabels : List Str := [['海', '水', '面'], ['海', '水', '底', '面']]

/-- The literal no-data text `"-9999."` compared against by the source. -/
def noDataText : Str := ['-', '9', '9', '9', '9', '.']

/-- The literal `"0.0"` substituted for sea no-data values. -/
def zeroText : Str := ['0', '.', '0']

/-- Processing of one `"category,value"` line of the tuple list: take the
second comma-separated token (`IndexError` when the line has no comma), and
when `sea_at_zero` is set and the category is a sea label with the no-data
value, substitute the literal `"0.0"`. -/
def tupleLineValue (sea_at_zero : Bool) (item : Str) : Except PyErr Str :=
  let parts := splitOnChar ',' item
  match parts[1]? with
  | none => .error .indexError
  | some v =>
    if sea_at_zero then
      if parts.headD [] ∈ seaLabels ∧ v = noDataText then .ok zeroText else .ok v
    else .ok v

/-- The `tuple_list.startswith("\n")` guard of the source: the text is
stripped only when its first character is a newline. -/
def stripLeadingNl (tuple_list : Str) : Str :=
  match tuple_list with
  | '\n' :: _ => pyStrip tuple_list
  | _ => tuple_list

/-- The list comprehension over the tuple-list lines: process each line in
order, the first failing line aborting the whole comprehension. -/
def mapLines (sea_at_zero : Bool) : List Str → Except PyErr (List Str)
  | [] => .ok []
  | item :: rest =>
    match tupleLineValue sea_at_zero item with
    | .error e => .error e
    | .ok v =>
      match mapLines sea_at_zero rest with
      | .error e => .error e
      | .ok vs => .ok (v :: vs)

/-- The tuple-list processing of `Dem.get_xml_content` after the `try` block:
strip the text when it starts with a newline, split it on newlines and map
`tupleLineValue` over the lines. -/
def tupleListItems (sea_at_zero : Bool) (tuple_list : Str) : Except PyErr (List Str) :=
  mapLines sea_at_zero (splitOnChar '\n' (stripLeadingNl tuple_list))

/-- The raw text of the required nodes of one tile document; `none` models a
node that `root.find` did not locate (whose `.text` access raises). -/
structure RawDoc where
  mesh_code : Option Str
  lower_corner : Option Str
  upper_corner : Option Str
  grid_length : Option Str
  start_point : Option Str
  tuple_list : Option Str
deriving DecidableEq, Repr

/-- A missing node: `root.find(…)` returned `None` and `.text` raised
(modelled as a `ValueError`-like failure; it is only ever swallowed by the
`try` block). -/
def nodeText (o : Option Str) : Except PyErr Str :=
  match o with
  | some s => .ok s
  | none => .error .valueError

/-- `Dem.get_xml_content`: the `try` block (node lookups, `int(…)` of the mesh
code, `_format_metadata`, tuple-list lookup) converts any failure into
`DemInputXmlException("Incorrect XML file.")`; the tuple-list line processing
then runs outside the `try` block, so its `IndexError` propagates unwrapped. -/
def getXmlContent (sea_at_zero : Bool) (doc : RawDoc) : Except PyErr Content :=
  let tryPart : Except PyErr (ℤ × MetaData × Str) := do
    let mesh ← pyIntE (← nodeText doc.mesh_code)
    let lc ← nodeText doc.lower_corner
    let uc ← nodeText doc.upper_corner
    let gl ← nodeText doc.grid_length
    let sp ← nodeText doc.start_point
    let md ← formatMetadata ⟨mesh, lc, uc, gl, sp⟩
    let tl ← nodeText doc.tuple_list
    pure (mesh, md, tl)
  match tryPart with
  | .error _ => .error .incorrectXml
  | .ok (mesh, md, tl) => do
    let items ← tupleListItems sea_at_zero tl
    pure ⟨mesh, md, items⟩

/-- The classification loop of `Dem._check_mesh_codes`: partition the codes
into 6-digit (second) and 8-digit (third) lists, failing at the first code of
any other length. -/
def classifyMesh : List ℤ → Except PyErr (List ℤ × List ℤ)
  | [] => .ok ([], [])
  | c :: cs =>
    if pyLenStr c = 6 then do
      let (second, third) ← classifyMesh cs
      .ok (c :: second, third)
    else if pyLenStr c = 8 then do
      let (second, third) ← classifyMesh cs
      .ok (second, c :: third)
    else .error (.incorrectMeshCode c)

/-- `Dem._check_mesh_codes`: raise on a code that is not 6 or 8 digits long,
then raise when both the second-level and the third-level lists are
non-empty. -/
def checkMeshCodes (codes : List ℤ) : Except PyErr Unit := do
  let (second, third) ← classifyMesh codes
  if ¬second.isEmpty ∧ ¬third.isEmpty then .error .mixedMeshFormat else .ok ()

/-- Python `min` over a list: `ValueError` on an empty sequence. -/
def pyMinL (l : List ℚ) : Except PyErr ℚ :=
  match l with
  | [] => .error .valueError
  | x :: xs => .ok (xs.foldl min x)

/-- Python `max` over a list: `ValueError` on an empty sequence. -/
def pyMaxL (l : List ℚ) : Except PyErr ℚ :=
  match l with
  | [] => .error .valueError
  | x :: xs => .ok (xs.foldl max x)

/-- `Dem._store_bounds_latlng`: the minima of the lower-corner latitudes and
longitudes and the maxima of the upper-corner latitudes and longitudes over
the whole batch. -/
def storeBoundsLatlng (metas : List MetaData) : Except PyErr BoundsLatLng := do
  let lower_left_lat ← pyMinL (metas.map fun m => m.lower_corner.lat)
  let lower_left_lon ← pyMinL (metas.map fun m => m.lower_corner.lon)
  let upper_right_lat ← pyMaxL (metas.map fun m => m.upper_corner.lat)
  let upper_right_lon ← pyMaxL (metas.map fun m => m.upper_corner.lon)
  return ⟨⟨lower_left_lat, lower_left_lon⟩, ⟨upper_right_lat, upper_right_lon⟩⟩

/-- `array[y][x] = v` on the 2-D list model with Python indexing on both axes
(`none` is an `IndexError` from either axis). -/
def pySet2 (arr : List (List ℚ)) (y x : ℤ) (v : ℚ) : Option (List (List ℚ)) :=
  match pyGetL arr y with
  | none => none
  | some row =>
    match pySetL row x v with
    | none => none
    | some row2 =>
      some (arr.set (if 0 ≤ y then y.toNat else (y + arr.length).toNat) row2)

/-- The inner loop of `Dem._get_np_array` (`for x in range(…, x_length)`), with
`n` remaining iterations and `x` the current column: an exhausted elevation
list or an out-of-range write breaks out of the row (the `except IndexError`),
an unparseable value is a `ValueError`, and otherwise the cell is written and
the sample index advances. -/
def fillRowN : ℕ → ℤ → ℤ → List (List ℚ) → ℕ → List Str → Except PyErr (List (List ℚ) × ℕ)
  | 0, _, _, arr, idx, _ => .ok (arr, idx)
  | n + 1, x, y, arr, idx, elev =>
    match elev[idx]? with
    | none => .ok (arr, idx)
    | some s =>
      match pyFloat? s with
      | none => .error .valueError
      | some v =>
        match pySet2 arr y x v with
        | none => .ok (arr, idx)
        | some arr2 => fillRowN n (x + 1) y arr2 (idx + 1) elev

/-- The outer loop of `Dem._get_np_array` (`for y in range(start_point_y,
y_length)`): each row runs the inner loop from its start column (the tile's
start point for the first row, zero afterwards). -/
def fillRowsN : ℕ → ℤ → ℤ → ℤ → List (List ℚ) → ℕ → List Str → Except PyErr (List (List ℚ))
  | 0, _, _, _, arr, _, _ => .ok arr
  | n + 1, y, sx, xlen, arr, idx, elev => do
    let (arr2, idx2) ← fillRowN (xlen - sx).toNat sx y arr idx elev
    fillRowsN n (y + 1) 0 xlen arr2 idx2 elev

/-- `Dem._get_np_array`: allocate a `(grid_length.y, grid_length.x)` array
filled with the no-data sentinel (numpy rejects negative dimensions) and run
the fill loops from the tile's start point. -/
def getNpArray (content : Content) : Except PyErr NpEntry :=
  let md := content.meta_data
  let xlen := md.grid_length.x
  let ylen := md.grid_length.y
  if xlen < 0 ∨ ylen < 0 then .error .valueError
  else do
    let arr := List.replicate ylen.toNat (List.replicate xlen.toNat (-9999 : ℚ))
    let a ← fillRowsN (ylen - md.start_point.y).toNat md.start_point.y
      md.start_point.x xlen arr 0 content.elevation_items
    return ⟨content.mesh_code, a⟩

/-- Stable insertion of `d` into a key-sorted list: `d` goes before the first
element whose key is not smaller (so earlier list elements with equal keys
stay first, as with Python's stable `sorted`). -/
def insertByKey {α : Type} (key : α → ℤ) (d : α) : List α → List α
  | [] => [d]
  | x :: xs => if key d ≤ key x then d :: x :: xs else x :: insertByKey key d xs

/-- Python `sorted(l, key=…)`: a stable sort by an integer key. -/
def sortByKey {α : Type} (key : α → ℤ) (l : List α) : List α :=
  l.foldr (insertByKey key) []

/-- `Converter._combine_meta_data_and_contents`: sort the metadata list and the
array list by mesh code and zip them, each metadata dict updated with the mesh
code and numpy array of its content dict. -/
def combineMetaAndContents (metas : List MetaData) (nps : List NpEntry) : List MeshData :=
  List.zipWith
    (fun (m : MetaData) (c : NpEntry) =>
      ⟨c.mesh_code, m.lower_corner, m.upper_corner, m.grid_length, m.start_point,
        m.pixel_size, c.np_array⟩)
    (sortByKey (fun m => m.mesh_code) metas)
    (sortByKey (fun c => c.mesh_code) nps)

/-- Python slice-index normalization for a length-`len` axis: a negative index
counts from the end, then the result is clamped into `[0, len]`. -/
def normIdx (len : ℕ) (i : ℤ) : ℕ :=
  (min (max (if i < 0 then i + len else i) 0) (len : ℤ)).toNat

/-- Map a function receiving the element index, starting the count at `i`. -/
def mapIdxFrom {α : Type} (f : ℕ → α → α) : ℕ → List α → List α
  | _, [] => []
  | i, a :: l => f i a :: mapIdxFrom f (i + 1) l

/-- Overwrite the `t0 × t1` rectangle of `arr` whose top-left cell is
`(rs, cs)` with values of `src` (of shape `s0 × s1`), an axis with `s = 1`
being broadcast. -/
def setRegion (arr : List (List ℚ)) (rs cs t0 t1 s0 s1 : ℕ)
    (src : List (List ℚ)) : List (List ℚ) :=
  mapIdxFrom (fun r row =>
    if rs ≤ r ∧ r < rs + t0 then
      mapIdxFrom (fun c v =>
        if cs ≤ c ∧ c < cs + t1 then
          (src.getD (if s0 = 1 then 0 else r - rs) []).getD
            (if s1 = 1 then 0 else c - cs) v
        else v) 0 row
    else row) 0 arr

/-- numpy basic slice assignment `arr[rs:re, cs:ce] = src`: both slices are
normalized (clipping, with Python's negative-index wrap-around), then `src`
must broadcast to the selected shape (equal size or size one per axis,
otherwise `ValueError`), and the selected region is overwritten in place. -/
def pySliceAssign (arr : List (List ℚ)) (rs re cs ce : ℤ)
    (src : List (List ℚ)) : Except PyErr (List (List ℚ)) :=
  let H := arr.length
  let W := (arr.headD []).length
  let rs2 := normIdx H rs
  let re2 := normIdx H re
  let cs2 := normIdx W cs
  let ce2 := normIdx W ce
  let t0 := re2 - rs2
  let t1 := ce2 - cs2
  let s0 := src.length
  let s1 := (src.headD []).length
  if (s0 = t0 ∨ s0 = 1) ∧ (s1 = t1 ∨ s1 = 1) then
    .ok (setRegion arr rs2 cs2 t0 t1 s0 s1 src)
  else .error .valueError

/-- `Converter._calc_image_size`: the mosaic pixel dimensions, each the
rounded absolute ratio of a bounds extent to the first tile's pixel size. -/
def calcImageSize (dem : DemState) : Except PyErr (ℤ × ℤ) := do
  let b := dem.bounds_latlng
  let ps0 ← match dem.meta_data_list with
    | [] => .error .indexError
    | m :: _ => .ok m.pixel_size
  let qx ← pyDivQ (b.upper_right.lon - b.lower_left.lon) ps0.x
  let qy ← pyDivQ (b.upper_right.lat - b.lower_left.lat) ps0.y
  return (pyRound |qx|, pyRound |qy|)

/-- One iteration of the placement loop of `Converter.make_data_for_geotiff`:
offsets of the tile's lower corner from the mosaic's southwest corner in
recomputed pixels, rounded; rows are placed top-down; then the 2-D slice
assignment copies the tile array in. -/
def placeOne (b : BoundsLatLng) (y_length : ℤ) (x_pixel_size y_pixel_size : ℚ)
    (arr : List (List ℚ)) (data : MeshData) : Except PyErr (List (List ℚ)) := do
  let lat_distance := data.lower_corner.lat - b.lower_left.lat
  let lon_distance := data.lower_corner.lon - b.lower_left.lon
  let xq ← pyDivQ lon_distance x_pixel_size
  let yq ← pyDivQ lat_distance (-y_pixel_size)
  let x_coordinate := pyRound xq
  let y_coordinate := pyRound yq
  let x_len := data.grid_length.x
  let y_len := data.grid_length.y
  let row_start := y_length - (y_coordinate + y_len)
  let row_end := row_start + y_len
  let column_start := x_coordinate
  let column_end := column_start + x_len
  pySliceAssign arr row_start row_end column_start column_end data.np_array

/-- The placement loop over the combined data list. -/
def placeTiles (b : BoundsLatLng) (y_length : ℤ) (x_pixel_size y_pixel_size : ℚ) :
    List MeshData → List (List ℚ) → Except PyErr (List (List ℚ))
  | [], arr => .ok arr
  | d :: ds, arr => do
    let arr2 ← placeOne b y_length x_pixel_size y_pixel_size arr d
    placeTiles b y_length x_pixel_size y_pixel_size ds arr2

/-- `Converter.make_data_for_geotiff`: compute the mosaic size, fail when a
dimension reaches 32000, allocate the no-data-filled mosaic, recompute the
authoritative per-axis pixel size from the bounds and the mosaic size, place
every combined tile, and return the geo-transform with the array. -/
def makeDataForGeotiff (dem : DemState) : Except PyErr GeoData := do
  let sz ← calcImageSize dem
  let x_length := sz.1
  let y_length := sz.2
  if x_length ≥ 32000 ∨ y_length ≥ 32000 then
    .error (.imageSizeTooLarge x_length y_length)
  else do
    let b := dem.bounds_latlng
    let dem_array := List.replicate y_length.toNat
      (List.replicate x_length.toNat (-9999 : ℚ))
    let x_pixel_size ← pyDivQ (b.upper_right.lon - b.lower_left.lon) (x_length : ℚ)
    let y_pixel_size ← pyDivQ (b.lower_left.lat - b.upper_right.lat) (y_length : ℚ)
    let data_list := combineMetaAndContents dem.meta_data_list dem.np_array_list
    let arr ← placeTiles b y_length x_pixel_size y_pixel_size data_list dem_array
    return ⟨[b.lower_left.lon, x_pixel_size, 0, b.upper_right.lat, 0, y_pixel_size],
      arr, x_length, y_length⟩

/-- The column offset of a tile inside the mosaic, as the spec words it:
`round((tile lower-corner lon − mosaic lower-left lon) / pixel size x)`. -/
def tileColStart (b : BoundsLatLng) (xps : ℚ) (d : MeshData) : ℤ :=
  pyRound ((d.lower_corner.lon - b.lower_left.lon) / xps)

/-- The row offset of a tile from the mosaic's southwest corner, as the spec
words it: `round((tile lower-corner lat − mosaic lower-left lat) / −pixel size y)`. -/
def tileRowOffset (b : BoundsLatLng) (yps : ℚ) (d : MeshData) : ℤ :=
  pyRound ((d.lower_corner.lat - b.lower_left.lat) / (-yps))

/-- The first (topmost) mosaic row of a tile's vertical slot
`[mosaic height − (row_offset + tile height), mosaic height − row_offset)`. -/
def tileRowStart (b : BoundsLatLng) (y_length : ℤ) (yps : ℚ) (d : MeshData) : ℤ :=
  y_length - (tileRowOffset b yps d + d.grid_length.y)

/-- Whether mosaic cell `(r, c)` lies in the placement rectangle of tile `d`. -/
def coversCell (b : BoundsLatLng) (y_length : ℤ) (xps yps : ℚ) (d : MeshData)
    (r c : ℕ) : Bool :=
  decide (tileRowStart b y_length yps d ≤ (r : ℤ)) &&
  decide ((r : ℤ) < tileRowStart b y_length yps d + d.grid_length.y) &&
  decide (tileColStart b xps d ≤ (c : ℤ)) &&
  decide ((c : ℤ) < tileColStart b xps d + d.grid_length.x)

/-- The value tile `d` contributes at mosaic cell `(r, c)` (meaningful when
`coversCell` holds): the tile array entry at the relative position. -/
def tileCellValue (b : BoundsLatLng) (y_length : ℤ) (xps yps : ℚ) (d : MeshData)
    (r c : ℕ) : ℚ :=
  (d.np_array.getD ((r : ℤ) - tileRowStart b y_length yps d).toNat []).getD
    ((c : ℤ) - tileColStart b xps d).toNat (-9999)

/-- The mosaic cell value as the spec describes it: start from the no-data
sentinel and let each tile of the batch, in order, overwrite the cell when its
placement rectangle covers it (last write wins). -/
def mosaicCellSpec (b : BoundsLatLng) (y_length : ℤ) (xps yps : ℚ)
    (ds : List MeshData) (r c : ℕ) : ℚ :=
  ds.foldl
    (fun v d => if coversCell b y_length xps yps d r c
      then tileCellValue b y_length xps yps d r c else v)
    (-9999)

/-! ### Basic lemmas about the `Except` plumbing -/

theorem okBind {α β : Type} (a : α) (f : α → Except PyErr β) :
    ((Except.ok a : Except PyErr α) >>= f) = f a := rfl

theorem errBind {α β : Type} (e : PyErr) (f : α → Except PyErr β) :
    ((Except.error e : Except PyErr α) >>= f) = Except.error e := rfl

theorem pureIsOk {α : Type} (a : α) : (pure a : Except PyErr α) = Except.ok a := rfl

theorem bindEqOk {α β : Type} {x : Except PyErr α} {f : α → Except PyErr β} {b : β}
    (h : (x >>= f) = .ok b) : ∃ a, x = .ok a ∧ f a = .ok b := by
  cases x with
  | ok a => exact ⟨a, rfl, h⟩
  | error e => exact absurd h (by simp [errBind])

/-! ### C4: the sea-to-zero substitution -/

/-- C4.  For every tuple-list line that has a second comma-separated token,
the enabled reader returns `"0.0"` (parsed later as the value `0.0`) exactly
when the category token is one of the two sea labels and the value token is
exactly `"-9999."`, and otherwise returns the second token unchanged; with the
option disabled the second token is always returned unchanged.  The
substitution is performed by the line processing of `Dem.get_xml_content`,
i.e. once, at read time. -/
theorem c4_sea_to_zero (item v : Str)
    (h : (splitOnChar ',' item)[1]? = some v) :
    tupleLineValue true item =
      .ok (if (splitOnChar ',' item).headD [] ∈ seaLabels ∧ v = noDataText
        then zeroText else v) ∧
    tupleLineValue false item = .ok v := by
  refine ⟨?_, by simp [tupleLineValue, h]⟩
  simp only [tupleLineValue, h, if_true]
  split
  · rename_i hc
    simp [hc]
  · rename_i hc
    simp [hc]

/-- Witness for C4 at the spec's own examples: `"海水面,-9999."` becomes
`"0.0"` only when the option is enabled, and `"地表面,-9999."` never does. -/
theorem c4_sea_to_zero_witness :
    tupleLineValue true (['海', '水', '面', ','] ++ noDataText) = .ok zeroText ∧
    tupleLineValue false (['海', '水', '面', ','] ++ noDataText) = .ok noDataText ∧
    tupleLineValue true (['地', '表', '面', ','] ++ noDataText) = .ok noDataText ∧
    tupleLineValue false (['地', '表', '面', ','] ++ noDataText) = .ok noDataText := by
  have h1 := c4_sea_to_zero (['海', '水', '面', ','] ++ noDataText) noDataText (by decide)
  have h2 := c4_sea_to_zero (['地', '表', '面', ','] ++ noDataText) noDataText (by decide)
  refine ⟨?_, h1.2, ?_, h2.2⟩
  · rw [h1.1]; decide
  · rw [h2.1]; decide

/-! ### C5: mesh-code validation -/

theorem classifyMesh_ok (codes : List ℤ)
    (h : ∀ c ∈ codes, pyLenStr c = 6 ∨ pyLenStr c = 8) :
    classifyMesh codes = .ok
      (codes.filter (fun c => decide (pyLenStr c = 6)),
       codes.filter (fun c => decide (pyLenStr c = 8))) := by
  induction codes with
  | nil => rfl
  | cons c cs ih =>
    have hcs : ∀ x ∈ cs, pyLenStr x = 6 ∨ pyLenStr x = 8 :=
      fun x hx => h x (List.mem_cons_of_mem _ hx)
    rcases h c (List.mem_cons_self c cs) with h6 | h8
    · simp [classifyMesh, h6, ih hcs, okBind, List.filter_cons]
    · have h6 : pyLenStr c ≠ 6 := by omega
      simp [classifyMesh, h6, h8, ih hcs, okBind, List.filter_cons]

theorem classifyMesh_error (codes : List ℤ)
    (h : ∃ c ∈ codes, pyLenStr c ≠ 6 ∧ pyLenStr c ≠ 8) :
    ∃ c ∈ codes, (pyLenStr c ≠ 6 ∧ pyLenStr c ≠ 8) ∧
      classifyMesh codes = .error (.incorrectMeshCode c) := by
  induction codes with
  | nil => simp at h
  | cons c cs ih =>
    by_cases h6 : pyLenStr c = 6
    · obtain ⟨d, hd, hbad⟩ := h
      have hd2 : d ∈ cs := by
        rcases List.mem_cons.1 hd with rfl | hmem
        · exact absurd h6 hbad.1
        · exact hmem
      obtain ⟨d, hdm, hbad2, herr⟩ := ih ⟨d, hd2, hbad⟩
      exact ⟨d, List.mem_cons_of_mem _ hdm, hbad2, by
        simp [classifyMesh, h6, herr, errBind]⟩
    · by_cases h8 : pyLenStr c = 8
      · obtain ⟨d, hd, hbad⟩ := h
        have hd2 : d ∈ cs := by
          rcases List.mem_cons.1 hd with rfl | hmem
          · exact absurd h8 hbad.2
          · exact hmem
        obtain ⟨d, hdm, hbad2, herr⟩ := ih ⟨d, hd2, hbad⟩
        exact ⟨d, List.mem_cons_of_mem _ hdm, hbad2, by
          simp [classifyMesh, h6, h8, herr, errBind]⟩
      · exact ⟨c, List.mem_cons_self c cs, ⟨h6, h8⟩, by simp [classifyMesh, h6, h8]⟩

/-- C5.  Validating a batch of mesh codes fails with the invalid-mesh-code
error (at some offending code) whenever a code's `len(str(…))` is neither 6
nor 8, fails with the mixed-mesh error when all codes are valid but both a
6-digit and an 8-digit code occur, and passes otherwise. -/
theorem c5_mesh_validation (codes : List ℤ) :
    ((∃ c ∈ codes, pyLenStr c ≠ 6 ∧ pyLenStr c ≠ 8) →
      ∃ c ∈ codes, (pyLenStr c ≠ 6 ∧ pyLenStr c ≠ 8) ∧
        checkMeshCodes codes = .error (.incorrectMeshCode c)) ∧
    ((∀ c ∈ codes, pyLenStr c = 6 ∨ pyLenStr c = 8) →
      (((∃ c ∈ codes, pyLenStr c = 6) ∧ (∃ c ∈ codes, pyLenStr c = 8)) →
        checkMeshCodes codes = .error .mixedMeshFormat) ∧
      (¬((∃ c ∈ codes, pyLenStr c = 6) ∧ (∃ c ∈ codes, pyLenStr c = 8)) →
        checkMeshCodes codes = .ok ())) := by
  constructor
  · intro h
    obtain ⟨c, hc, hbad, herr⟩ := classifyMesh_error codes h
    exact ⟨c, hc, hbad, by simp [checkMeshCodes, herr, errBind]⟩
  · intro h
    have hclass := classifyMesh_ok codes h
    constructor
    · rintro ⟨⟨c6, hc6, h6⟩, ⟨c8, hc8, h8⟩⟩
      have hne6 : ¬(codes.filter (fun c => decide (pyLenStr c = 6))).isEmpty = true := by
        intro hie
        rw [List.isEmpty_iff, List.filter_eq_nil_iff] at hie
        exact hie c6 hc6 (by simp [h6])
      have hne8 : ¬(codes.filter (fun c => decide (pyLenStr c = 8))).isEmpty = true := by
        intro hie
        rw [List.isEmpty_iff, List.filter_eq_nil_iff] at hie
        exact hie c8 hc8 (by simp [h8])
      simp only [checkMeshCodes, hclass, okBind]
      rw [if_pos ⟨hne6, hne8⟩]
    · intro hnot
      by_cases h6e : codes.filter (fun c => decide (pyLenStr c = 6)) = []
      · simp only [checkMeshCodes, hclass, okBind]
        rw [if_neg]
        rintro ⟨hn6, _⟩
        exact hn6 (by rw [List.isEmpty_iff]; exact h6e)
      · by_cases h8e : codes.filter (fun c => decide (pyLenStr c = 8)) = []
        · simp only [checkMeshCodes, hclass, okBind]
          rw [if_neg]
          rintro ⟨_, hn8⟩
          exact hn8 (by rw [List.isEmpty_iff]; exact h8e)
        · exfalso
          apply hnot
          constructor
          · obtain ⟨a, ha⟩ := List.exists_mem_of_ne_nil _ h6e
            have := List.mem_filter.1 ha
            exact ⟨a, this.1, by simpa using this.2⟩
          · obtain ⟨a, ha⟩ := List.exists_mem_of_ne_nil _ h8e
            have := List.mem_filter.1 ha
            exact ⟨a, this.1, by simpa using this.2⟩

/-- Witness for C5 at the spec's examples: `{123456, 12345678}` is mixed,
`{123456, 654321}` passes, and 5- and 7-digit codes are invalid. -/
theorem c5_mesh_validation_witness :
    checkMeshCodes [123456, 12345678] = .error .mixedMeshFormat ∧
    checkMeshCodes [123456, 654321] = .ok () ∧
    checkMeshCodes [12345] = .error (.incorrectMeshCode 12345) ∧
    checkMeshCodes [1234567] = .error (.incorrectMeshCode 1234567) := by
  refine ⟨?_, ?_, ?_, ?_⟩
  · exact ((c5_mesh_validation [123456, 12345678]).2 (by decide)).1
      ⟨⟨123456, by decide, by decide⟩, ⟨12345678, by decide, by decide⟩⟩
  · exact ((c5_mesh_validation [123456, 654321]).2 (by decide)).2 (by decide)
  · obtain ⟨c, hc, _, herr⟩ := (c5_mesh_validation [12345]).1
      ⟨12345, by decide, by decide⟩
    have : c = 12345 := by
      rcases List.mem_singleton.1 hc with rfl; rfl
    rwa [this] at herr
  · obtain ⟨c, hc, _, herr⟩ := (c5_mesh_validation [1234567]).1
      ⟨1234567, by decide, by decide⟩
    have : c = 1234567 := by
      rcases List.mem_singleton.1 hc with rfl; rfl
    rwa [this] at herr

/-! ### C7: mosaic bounds -/

theorem foldl_min_spec (x : ℚ) (xs : List ℚ) :
    (xs.foldl min x ∈ x :: xs) ∧ ∀ y ∈ x :: xs, xs.foldl min x ≤ y := by
  induction xs generalizing x with
  | nil => simp
  | cons a l ih =>
    obtain ⟨hmem, hle⟩ := ih (min x a)
    simp only [List.foldl_cons]
    constructor
    · rcases List.mem_cons.1 hmem with he | hl
      · rcases min_choice x a with hxa | hxa
        · rw [he, hxa]
          exact List.mem_cons_self _ _
        · rw [he, hxa]
          exact List.mem_cons_of_mem _ (List.mem_cons_self _ _)
      · exact List.mem_cons_of_mem _ (List.mem_cons_of_mem _ hl)
    · intro y hy
      have hminle : l.foldl min (min x a) ≤ min x a := hle _ (List.mem_cons_self _ _)
      rcases List.mem_cons.1 hy with rfl | hy2
      · exact le_trans hminle (min_le_left _ _)
      · rcases List.mem_cons.1 hy2 with rfl | hy3
        · exact le_trans hminle (min_le_right _ _)
        · exact hle _ (List.mem_cons_of_mem _ hy3)

theorem foldl_max_spec (x : ℚ) (xs : List ℚ) :
    (xs.foldl max x ∈ x :: xs) ∧ ∀ y ∈ x :: xs, y ≤ xs.foldl max x := by
  induction xs generalizing x with
  | nil => simp
  | cons a l ih =>
    obtain ⟨hmem, hle⟩ := ih (max x a)
    simp only [List.foldl_cons]
    constructor
    · rcases List.mem_cons.1 hmem with he | hl
      · rcases max_choice x a with hxa | hxa
        · rw [he, hxa]
          exact List.mem_cons_self _ _
        · rw [he, hxa]
          exact List.mem_cons_of_mem _ (List.mem_cons_self _ _)
      · exact List.mem_cons_of_mem _ (List.mem_cons_of_mem _ hl)
    · intro y hy
      have hminle : max x a ≤ l.foldl max (max x a) := hle _ (List.mem_cons_self _ _)
      rcases List.mem_cons.1 hy with rfl | hy2
      · exact le_trans (le_max_left _ _) hminle
      · rcases List.mem_cons.1 hy2 with rfl | hy3
        · exact le_trans (le_max_right _ _) hminle
        · exact hle _ (List.mem_cons_of_mem _ hy3)

theorem pyMinL_ok {l : List ℚ} {q : ℚ} (h : pyMinL l = .ok q) :
    q ∈ l ∧ ∀ y ∈ l, q ≤ y := by
  cases l with
  | nil => exact absurd h (by simp [pyMinL])
  | cons x xs =>
    have hq : q = xs.foldl min x := by
      have := h
      simp only [pyMinL, Except.ok.injEq] at this
      exact this.symm
    rw [hq]
    exact foldl_min_spec x xs

theorem pyMaxL_ok {l : List ℚ} {q : ℚ} (h : pyMaxL l = .ok q) :
    q ∈ l ∧ ∀ y ∈ l, y ≤ q := by
  cases l with
  | nil => exact absurd h (by simp [pyMaxL])
  | cons x xs =>
    have hq : q = xs.foldl max x := by
      have := h
      simp only [pyMaxL, Except.ok.injEq] at this
      exact this.symm
    rw [hq]
    exact foldl_max_spec x xs

/-- C7.  For an empty batch the bounds computation fails (the `ValueError`
that Python's `min` raises on an empty sequence — the failure the spec names
`EmptyInputError`); for a non-empty batch it succeeds, and the southwest
corner is the minimum of the tiles' lower-corner latitudes and longitudes
while the northeast corner is the maximum of the upper-corner latitudes and
longitudes. -/
theorem c7_bounds (metas : List MetaData) :
    (metas = [] → storeBoundsLatlng metas = .error .valueError) ∧
    (metas ≠ [] → ∃ b, storeBoundsLatlng metas = .ok b) ∧
    (∀ b, storeBoundsLatlng metas = .ok b →
      (b.lower_left.lat ∈ metas.map (fun m => m.lower_corner.lat) ∧
        ∀ q ∈ metas.map (fun m => m.lower_corner.lat), b.lower_left.lat ≤ q) ∧
      (b.lower_left.lon ∈ metas.map (fun m => m.lower_corner.lon) ∧
        ∀ q ∈ metas.map (fun m => m.lower_corner.lon), b.lower_left.lon ≤ q) ∧
      (b.upper_right.lat ∈ metas.map (fun m => m.upper_corner.lat) ∧
        ∀ q ∈ metas.map (fun m => m.upper_corner.lat), q ≤ b.upper_right.lat) ∧
      (b.upper_right.lon ∈ metas.map (fun m => m.upper_corner.lon) ∧
        ∀ q ∈ metas.map (fun m => m.upper_corner.lon), q ≤ b.upper_right.lon)) := by
  refine ⟨?_, ?_, ?_⟩
  · rintro rfl
    rfl
  · intro hne
    cases metas with
    | nil => exact absurd rfl hne
    | cons m rest =>
      exact ⟨_, rfl⟩
  · intro b h
    obtain ⟨q1, hq1, h⟩ := bindEqOk h
    obtain ⟨q2, hq2, h⟩ := bindEqOk h
    obtain ⟨q3, hq3, h⟩ := bindEqOk h
    obtain ⟨q4, hq4, h⟩ := bindEqOk h
    simp only [pureIsOk, Except.ok.injEq] at h
    subst h
    exact ⟨pyMinL_ok hq1, pyMinL_ok hq2, pyMaxL_ok hq3, pyMaxL_ok hq4⟩

/-- A concrete two-tile batch for the C7 witness. -/
def c7m1 : MetaData := ⟨111111, ⟨35, 139⟩, ⟨36, 140⟩, ⟨10, 10⟩, ⟨0, 0⟩, ⟨1/10, -1/10⟩⟩

/-- The second tile of the C7 witness batch. -/
def c7m2 : MetaData := ⟨222222, ⟨36, 140⟩, ⟨37, 141⟩, ⟨10, 10⟩, ⟨0, 0⟩, ⟨1/10, -1/10⟩⟩

/-- The bounds of the C7 witness batch. -/
def c7b0 : BoundsLatLng := ⟨⟨35, 139⟩, ⟨37, 141⟩⟩

/-- Witness for C7: on a concrete two-tile batch the bounds computation
succeeds and the southwest latitude is the minimum lower-corner latitude. -/
theorem c7_bounds_witness :
    (∃ b, storeBoundsLatlng [c7m1, c7m2] = .ok b) ∧
    (c7b0.lower_left.lat ∈ [c7m1, c7m2].map (fun m => m.lower_corner.lat) ∧
      ∀ q ∈ [c7m1, c7m2].map (fun m => m.lower_corner.lat), c7b0.lower_left.lat ≤ q) :=
  ⟨(c7_bounds [c7m1, c7m2]).2.1 (by decide),
   ((c7_bounds [c7m1, c7m2]).2.2 c7b0 (by decide)).1⟩

/-! ### C10: a comma-free tuple-list line escapes as a raw IndexError -/

theorem tupleLineValue_error {sea : Bool} {item : Str} {e : PyErr}
    (h : tupleLineValue sea item = .error e) : e = .indexError := by
  rcases hsp : (splitOnChar ',' item)[1]? with _ | v
  · simp only [tupleLineValue, hsp] at h
    exact (Except.error.inj h).symm
  · simp only [tupleLineValue, hsp] at h
    split at h
    · split at h <;> cases h
    · cases h

theorem tupleLineValue_noComma {sea : Bool} {item : Str}
    (h : (splitOnChar ',' item)[1]? = none) :
    tupleLineValue sea item = .error .indexError := by
  simp [tupleLineValue, h]

theorem mapLines_indexError (sea : Bool) (lines : List Str)
    (h : ∃ line ∈ lines, (splitOnChar ',' line)[1]? = none) :
    mapLines sea lines = .error .indexError := by
  induction lines with
  | nil => simp at h
  | cons a l ih =>
    cases ha : tupleLineValue sea a with
    | error e =>
      have he := tupleLineValue_error ha
      subst he
      simp [mapLines, ha]
    | ok v =>
      obtain ⟨line, hm, hnone⟩ := h
      have hline : line ∈ l := by
        rcases List.mem_cons.1 hm with rfl | h2
        · rw [tupleLineValue_noComma hnone] at ha
          cases ha
        · exact h2
      simp [mapLines, ha, ih ⟨line, hline, hnone⟩]

/-- C10.  For a tile document whose metadata parses (so the `try` block of
`get_xml_content` succeeds) but whose tuple-list text, after the conditional
strip, contains a line without a comma — e.g. the empty trailing line a final
newline produces when the text does not begin with a newline — the reader
fails with the raw `IndexError` of `item.split(",")[1]`, not with the wrapped
`DemInputXmlException("Incorrect XML file.")`, because the line processing
runs outside the `try` block. -/
theorem c10_index_error_escapes (sea : Bool) (doc : RawDoc)
    (ms lc uc gl sp tl : Str)
    (h1 : doc.mesh_code = some ms) (h2 : doc.lower_corner = some lc)
    (h3 : doc.upper_corner = some uc) (h4 : doc.grid_length = some gl)
    (h5 : doc.start_point = some sp) (h6 : doc.tuple_list = some tl)
    (z : ℤ) (hz : pyInt? ms = some z)
    (md : MetaData) (hmd : formatMetadata ⟨z, lc, uc, gl, sp⟩ = .ok md)
    (hline : ∃ line ∈ splitOnChar '\n' (stripLeadingNl tl),
      (splitOnChar ',' line)[1]? = none) :
    getXmlContent sea doc = .error .indexError := by
  simp only [getXmlContent, h1, h2, h3, h4, h5, h6, nodeText, pyIntE, hz, okBind, hmd,
    pureIsOk]
  simp only [tupleListItems, mapLines_indexError sea _ hline, errBind]

/-- The tile document of the C10 witness: well-formed metadata, and the
tuple-list text `"地表面,1.0\n"` whose trailing newline yields an empty
(comma-free) final line. -/
def c10doc : RawDoc :=
  ⟨some ['6', '4', '4', '1', '3', '2'],
   some ['3', '5', ' ', '1', '3', '9'],
   some ['3', '6', ' ', '1', '4', '0'],
   some ['9', ' ', '9'],
   some ['0', ' ', '0'],
   some ['地', '表', '面', ',', '1', '.', '0', '\n']⟩

/-- Witness for C10 at the concrete document, for both option values. -/
theorem c10_index_error_escapes_witness :
    getXmlContent false c10doc = .error .indexError ∧
    getXmlContent true c10doc = .error .indexError :=
  ⟨c10_index_error_escapes false c10doc _ _ _ _ _ _ rfl rfl rfl rfl rfl rfl
      644132 (by decide)
      ⟨644132, ⟨35, 139⟩, ⟨36, 140⟩, ⟨10, 10⟩, ⟨0, 0⟩, ⟨1/10, -1/10⟩⟩ (by decide)
      (by decide),
   c10_index_error_escapes true c10doc _ _ _ _ _ _ rfl rfl rfl rfl rfl rfl
      644132 (by decide)
      ⟨644132, ⟨35, 139⟩, ⟨36, 140⟩, ⟨10, 10⟩, ⟨0, 0⟩, ⟨1/10, -1/10⟩⟩ (by decide)
      (by decide)⟩

/-! ### C6: the metadata normalizer -/

theorem pyIndex_ok {α : Type} {l : List α} {i : ℕ} {a : α}
    (h : pyIndex l i = .ok a) : l[i]? = some a := by
  unfold pyIndex at h
  rcases hl : l[i]? with _ | b
  · rw [hl] at h
    cases h
  · rw [hl] at h
    cases h
    rfl

theorem pyFloatE_ok {s : Str} {q : ℚ} (h : pyFloatE s = .ok q) :
    pyFloat? s = some q := by
  unfold pyFloatE at h
  rcases hp : pyFloat? s with _ | r
  · rw [hp] at h
    cases h
  · rw [hp] at h
    cases h
    rfl

theorem pyIntE_ok {s : Str} {z : ℤ} (h : pyIntE s = .ok z) :
    pyInt? s = some z := by
  unfold pyIntE at h
  rcases hp : pyInt? s with _ | r
  · rw [hp] at h
    cases h
  · rw [hp] at h
    cases h
    rfl

theorem pyDivQ_ok {a b q : ℚ} (h : pyDivQ a b = .ok q) :
    b ≠ 0 ∧ q = a / b := by
  unfold pyDivQ at h
  split at h
  · cases h
  · rename_i hb
    cases h
    exact ⟨hb, rfl⟩

/-- What the metadata normalizer guarantees about its output, as C6 words it
(with the positivity of the stored grid lengths as an added guard on the sign
statements): the corner fields parse as `(lat, lon)` and the start point as
`(x, y)` in that literal token order, each stored grid length is the declared
high index plus one, the pixel size is the corner difference divided by the
grid length per axis, the x pixel size is positive when the upper longitude
exceeds the lower one, and the y pixel size is negative when the upper
latitude exceeds the lower one. -/
def metadataNormalizerSpec (raw : RawMetadata) (md : MetaData) : Prop :=
  md.mesh_code = raw.mesh_code ∧
  (∃ s, (splitOnChar ' ' raw.lower_corner)[0]? = some s ∧
    pyFloat? s = some md.lower_corner.lat) ∧
  (∃ s, (splitOnChar ' ' raw.lower_corner)[1]? = some s ∧
    pyFloat? s = some md.lower_corner.lon) ∧
  (∃ s, (splitOnChar ' ' raw.upper_corner)[0]? = some s ∧
    pyFloat? s = some md.upper_corner.lat) ∧
  (∃ s, (splitOnChar ' ' raw.upper_corner)[1]? = some s ∧
    pyFloat? s = some md.upper_corner.lon) ∧
  (∃ s hx, (splitOnChar ' ' raw.grid_length)[0]? = some s ∧ pyInt? s = some hx ∧
    md.grid_length.x = hx + 1) ∧
  (∃ s hy, (splitOnChar ' ' raw.grid_length)[1]? = some s ∧ pyInt? s = some hy ∧
    md.grid_length.y = hy + 1) ∧
  (∃ s z, (splitOnChar ' ' raw.start_point)[0]? = some s ∧ pyInt? s = some z ∧
    md.start_point.x = z) ∧
  (∃ s z, (splitOnChar ' ' raw.start_point)[1]? = some s ∧ pyInt? s = some z ∧
    md.start_point.y = z) ∧
  md.grid_length.x ≠ 0 ∧ md.grid_length.y ≠ 0 ∧
  md.pixel_size.x =
    (md.upper_corner.lon - md.lower_corner.lon) / (md.grid_length.x : ℚ) ∧
  md.pixel_size.y =
    (md.lower_corner.lat - md.upper_corner.lat) / (md.grid_length.y : ℚ) ∧
  (0 < md.grid_length.x → md.lower_corner.lon < md.upper_corner.lon →
    0 < md.pixel_size.x) ∧
  (0 < md.grid_length.y → md.lower_corner.lat < md.upper_corner.lat →
    md.pixel_size.y < 0)

/-- C6 (amended).  Every successfully formatted tile metadata satisfies
`metadataNormalizerSpec`: grid length is declared high plus one, corner and
start-point fields are parsed in the literal `(lat, lon)` / `(x, y)` order,
pixel size is the corner difference over the grid length, and — provided the
stored grid lengths are positive, which the original claim omitted — the
pixel-size signs follow the corner ordering. -/
theorem c6_metadata_normalizer (raw : RawMetadata) (md : MetaData)
    (h : formatMetadata raw = .ok md) : metadataNormalizerSpec raw md := by
  unfold formatMetadata at h
  obtain ⟨s1, hs1, h⟩ := bindEqOk h
  obtain ⟨llat, hllat, h⟩ := bindEqOk h
  obtain ⟨s2, hs2, h⟩ := bindEqOk h
  obtain ⟨llon, hllon, h⟩ := bindEqOk h
  obtain ⟨s3, hs3, h⟩ := bindEqOk h
  obtain ⟨ulat, hulat, h⟩ := bindEqOk h
  obtain ⟨s4, hs4, h⟩ := bindEqOk h
  obtain ⟨ulon, hulon, h⟩ := bindEqOk h
  obtain ⟨s5, hs5, h⟩ := bindEqOk h
  obtain ⟨gx, hgx, h⟩ := bindEqOk h
  obtain ⟨s6, hs6, h⟩ := bindEqOk h
  obtain ⟨gy, hgy, h⟩ := bindEqOk h
  obtain ⟨s7, hs7, h⟩ := bindEqOk h
  obtain ⟨sx, hsx, h⟩ := bindEqOk h
  obtain ⟨s8, hs8, h⟩ := bindEqOk h
  obtain ⟨sy, hsy, h⟩ := bindEqOk h
  obtain ⟨psx, hpsx, h⟩ := bindEqOk h
  obtain ⟨psy, hpsy, h⟩ := bindEqOk h
  simp only [pureIsOk, Except.ok.injEq] at h
  subst h
  obtain ⟨hxne, hxval⟩ := pyDivQ_ok hpsx
  obtain ⟨hyne, hyval⟩ := pyDivQ_ok hpsy
  refine ⟨rfl,
    ⟨s1, pyIndex_ok hs1, pyFloatE_ok hllat⟩,
    ⟨s2, pyIndex_ok hs2, pyFloatE_ok hllon⟩,
    ⟨s3, pyIndex_ok hs3, pyFloatE_ok hulat⟩,
    ⟨s4, pyIndex_ok hs4, pyFloatE_ok hulon⟩,
    ⟨s5, gx, pyIndex_ok hs5, pyIntE_ok hgx, rfl⟩,
    ⟨s6, gy, pyIndex_ok hs6, pyIntE_ok hgy, rfl⟩,
    ⟨s7, sx, pyIndex_ok hs7, pyIntE_ok hsx, rfl⟩,
    ⟨s8, sy, pyIndex_ok hs8, pyIntE_ok hsy, rfl⟩,
    ?_, ?_, hxval, hyval, ?_, ?_⟩
  · exact_mod_cast hxne
  · exact_mod_cast hyne
  · intro hpos hlon
    rw [hxval]
    exact div_pos (sub_pos.2 hlon) (by exact_mod_cast hpos)
  · intro hpos hlat
    rw [hyval]
    exact div_neg_of_neg_of_pos (sub_neg.2 hlat) (by exact_mod_cast hpos)

/-- A well-formed raw metadata record for the C6 witness
(`"35 139"`, `"36 140"`, grid high `"9 9"`, start point `"0 0"`). -/
def rawEx : RawMetadata :=
  ⟨644132, ['3', '5', ' ', '1', '3', '9'], ['3', '6', ' ', '1', '4', '0'],
   ['9', ' ', '9'], ['0', ' ', '0']⟩

/-- The formatted metadata of `rawEx`. -/
def mdEx : MetaData :=
  ⟨644132, ⟨35, 139⟩, ⟨36, 140⟩, ⟨10, 10⟩, ⟨0, 0⟩, ⟨1/10, -1/10⟩⟩

/-- Witness for C6 at a concrete well-formed tile. -/
theorem c6_metadata_normalizer_witness : metadataNormalizerSpec rawEx mdEx :=
  c6_metadata_normalizer rawEx mdEx (by decide)

/-- A raw metadata record with a negative declared grid high (`"-3 -3"`),
which `int(…)` accepts; no range validation is performed. -/
def c6raw : RawMetadata :=
  ⟨644132, ['3', '5', ' ', '1', '3', '9'], ['3', '6', ' ', '1', '4', '0'],
   ['-', '3', ' ', '-', '3'], ['0', ' ', '0']⟩

/-- The formatted metadata of `c6raw`: grid length `-2`, pixel sizes with the
signs flipped. -/
def c6md : MetaData :=
  ⟨644132, ⟨35, 139⟩, ⟨36, 140⟩, ⟨-2, -2⟩, ⟨0, 0⟩, ⟨-1/2, 1/2⟩⟩

/-- Counterexample to C6 as stated: `c6raw` parses (grid high `"-3 -3"` is
accepted by `int`), its upper corner longitude exceeds the lower one, yet the
derived x pixel size is negative — and the upper latitude exceeds the lower
one yet the y pixel size is positive.  The sign claims need the stored grid
lengths to be positive. -/
theorem c6_counterexample :
    formatMetadata c6raw = .ok c6md ∧
    c6md.lower_corner.lon < c6md.upper_corner.lon ∧
    c6md.pixel_size.x < 0 ∧
    c6md.lower_corner.lat < c6md.upper_corner.lat ∧
    0 < c6md.pixel_size.y := by decide

/-! ### The tile array builder (C2 and C9) -/

/-- A rectangular 2-D array of `H` rows and `W` columns. -/
def rect (arr : List (List ℚ)) (H W : ℕ) : Prop :=
  arr.length = H ∧ ∀ row ∈ arr, row.length = W

/-- The number of cells the fill loops walk: a first row of `xlen − sx`
cells followed by full rows. -/
def walkLen : ℕ → ℤ → ℤ → ℕ
  | 0, _, _ => 0
  | n + 1, sx, xlen => (xlen - sx).toNat + walkLen n 0 xlen

theorem walkLen_zero_start (n : ℕ) (xlen : ℤ) :
    walkLen n 0 xlen = n * xlen.toNat := by
  induction n with
  | zero => simp [walkLen]
  | succ n ih =>
    simp only [walkLen, ih]
    have h0 : (xlen - 0).toNat = xlen.toNat := by omega
    rw [h0]
    ring

theorem cellOf_set_row {arr : List (List ℚ)} {i : ℕ} (hi : i < arr.length)
    (row : List ℚ) (r c : ℕ) :
    cellOf (arr.set i row) r c = if r = i then row.getD c (-9999) else cellOf arr r c := by
  by_cases hr : r = i
  · subst hr
    simp [cellOf, List.getD_eq_getElem?_getD, List.getElem?_set_self hi]
  · simp [cellOf, List.getD_eq_getElem?_getD,
      List.getElem?_set_ne (fun he => hr he.symm), hr]

theorem getD_set_q {l : List ℚ} {i : ℕ} (hi : i < l.length) (v : ℚ) (c : ℕ) :
    (l.set i v).getD c (-9999) = if c = i then v else l.getD c (-9999) := by
  by_cases hc : c = i
  · subst hc
    simp [List.getD_eq_getElem?_getD, List.getElem?_set_self hi]
  · simp [List.getD_eq_getElem?_getD,
      List.getElem?_set_ne (fun he => hc he.symm), hc]

theorem cellOf_eq_row {arr : List (List ℚ)} {r : ℕ} (hr : r < arr.length) (c : ℕ) :
    cellOf arr r c = (arr[r]).getD c (-9999) := by
  simp [cellOf, List.getD_eq_getElem?_getD, List.getElem?_eq_getElem hr]

theorem pySet2_ok {arr : List (List ℚ)} {H W : ℕ} (hr : rect arr H W)
    {y x : ℤ} (hy0 : 0 ≤ y) (hyH : y < (H : ℤ)) (hx0 : 0 ≤ x) (hxW : x < (W : ℤ))
    (v : ℚ) :
    ∃ arr2, pySet2 arr y x v = some arr2 ∧ rect arr2 H W ∧
      ∀ r c : ℕ, cellOf arr2 r c =
        if r = y.toNat ∧ c = x.toNat then v else cellOf arr r c := by
  obtain ⟨hlen, hrows⟩ := hr
  have hyN : y.toNat < arr.length := by omega
  have hget : arr[y.toNat]? = some (arr[y.toNat]) := List.getElem?_eq_getElem hyN
  have hrowW : (arr[y.toNat]).length = W := hrows _ (List.getElem_mem hyN)
  have hxN : x.toNat < (arr[y.toNat]).length := by omega
  refine ⟨arr.set y.toNat ((arr[y.toNat]).set x.toNat v), ?_, ?_, ?_⟩
  · simp only [pySet2, pyGetL, pySetL, if_pos hy0, hget]
    have hxlt : x < ((arr[y.toNat]).length : ℤ) := by omega
    simp [if_pos hx0, hxlt]
  · constructor
    · simp [hlen]
    · intro row hrow
      rcases List.mem_or_eq_of_mem_set hrow with hmem | heq
      · exact hrows _ hmem
      · rw [heq]
        simp [hrowW]
  · intro r c
    rw [cellOf_set_row hyN]
    by_cases hry : r = y.toNat
    · subst hry
      rw [if_pos rfl, getD_set_q hxN]
      by_cases hcx : c = x.toNat
      · rw [if_pos hcx, if_pos ⟨rfl, hcx⟩]
      · rw [if_neg hcx, if_neg (by rintro ⟨_, h⟩; exact hcx h), cellOf_eq_row hyN]
    · rw [if_neg hry, if_neg (by rintro ⟨h, _⟩; exact hry h)]

theorem fillRowN_ok {H : ℕ} {xlen : ℤ} :
    ∀ (n : ℕ) (x y : ℤ) (arr : List (List ℚ)) (idx : ℕ) (elev : List Str),
    rect arr H xlen.toNat →
    0 ≤ y → y < (H : ℤ) →
    0 ≤ x → x + n ≤ xlen →
    (∀ j : ℕ, idx ≤ j → j < min elev.length (idx + n) →
      (pyFloat? (elev.getD j [])).isSome) →
    idx ≤ elev.length →
    ∃ arr2, fillRowN n x y arr idx elev = .ok (arr2, min elev.length (idx + n)) ∧
      rect arr2 H xlen.toNat ∧
      ∀ r c : ℕ, cellOf arr2 r c =
        if r = y.toNat ∧ x.toNat ≤ c ∧
            c < x.toNat + (min elev.length (idx + n) - idx) then
          (pyFloat? (elev.getD (idx + (c - x.toNat)) [])).getD 0
        else cellOf arr r c := by
  intro n
  induction n with
  | zero =>
    intro x y arr idx elev hr _ _ _ _ _ hidx
    have hmin : min elev.length (idx + 0) = idx := by omega
    refine ⟨arr, ?_, hr, ?_⟩
    · simp only [fillRowN]
      rw [hmin]
    · intro r c
      rw [if_neg]
      rintro ⟨_, hge, hlt⟩
      omega
  | succ n ih =>
    intro x y arr idx elev hr hy0 hyH hx0 hxn hparse hidx
    by_cases hend : idx = elev.length
    · have hnone : elev[idx]? = none := by
        rw [List.getElem?_eq_none_iff]
        omega
      have hmin : min elev.length (idx + (n + 1)) = idx := by omega
      refine ⟨arr, ?_, hr, ?_⟩
      · simp only [fillRowN, hnone]
        rw [hmin]
      · intro r c
        rw [if_neg]
        rintro ⟨_, hge, hlt⟩
        omega
    · have hlt : idx < elev.length := by omega
      have hsome : elev[idx]? = some (elev.getD idx []) := by
        rw [List.getElem?_eq_getElem hlt]
        simp [List.getD_eq_getElem?_getD, List.getElem?_eq_getElem hlt]
      have hps : (pyFloat? (elev.getD idx [])).isSome := by
        apply hparse idx le_rfl
        omega
      obtain ⟨v, hv⟩ := Option.isSome_iff_exists.1 hps
      have hxW : x < xlen := by omega
      obtain ⟨arr1, hset, hr1, hcell1⟩ :=
        pySet2_ok hr hy0 hyH hx0 (by omega) v
      obtain ⟨arr2, hrec, hr2, hcell2⟩ :=
        ih (x + 1) y arr1 (idx + 1) elev hr1 hy0 hyH (by omega) (by omega)
          (fun j hj1 hj2 => hparse j (by omega) (by omega)) (by omega)
      have hminshift : min elev.length (idx + 1 + n) = min elev.length (idx + (n + 1)) := by
        omega
      refine ⟨arr2, ?_, hr2, ?_⟩
      · simp only [fillRowN, hsome, hv, hset]
        rw [hrec, hminshift]
      · intro r c
        rw [hcell2 r c, hcell1 r c, ← hminshift]
        have hxt : (x + 1).toNat = x.toNat + 1 := by omega
        by_cases hry : r = y.toNat
        · subst hry
          by_cases hc1 : c = x.toNat
          · subst hc1
            rw [if_neg (by omega), if_pos ⟨rfl, rfl⟩, if_pos ⟨rfl, by omega, by omega⟩]
            have h0 : idx + (x.toNat - x.toNat) = idx := by omega
            rw [h0, hv]
            rfl
          · by_cases hc2 : x.toNat + 1 ≤ c ∧
                c < x.toNat + 1 + (min elev.length (idx + 1 + n) - (idx + 1))
            · rw [if_pos ⟨rfl, by omega, by omega⟩, if_pos ⟨rfl, by omega, by omega⟩]
              have harith : idx + 1 + (c - (x + 1).toNat) = idx + (c - x.toNat) := by
                omega
              rw [harith]
            · rw [if_neg (by omega), if_neg (by omega), if_neg (by omega)]
        · rw [if_neg (by omega), if_neg (by omega), if_neg (by omega)]

theorem fillRowsN_ok {H : ℕ} {xlen : ℤ} (hxl : 0 ≤ xlen) :
    ∀ (n : ℕ) (y sx : ℤ) (arr : List (List ℚ)) (idx : ℕ) (elev : List Str),
    rect arr H xlen.toNat →
    0 ≤ y → y + n ≤ (H : ℤ) →
    0 ≤ sx → sx ≤ xlen →
    idx ≤ elev.length →
    (∀ j : ℕ, idx ≤ j → j < min elev.length (idx + walkLen n sx xlen) →
      (pyFloat? (elev.getD j [])).isSome) →
    ∃ arr2, fillRowsN n y sx xlen arr idx elev = .ok arr2 ∧ rect arr2 H xlen.toNat ∧
      ∀ r c : ℕ, c < xlen.toNat →
        cellOf arr2 r c =
          if y.toNat ≤ r ∧ r < y.toNat + n ∧
              (idx : ℤ) ≤ (idx : ℤ) + ((r : ℤ) - y) * xlen + (c : ℤ) - sx ∧
              (idx : ℤ) + ((r : ℤ) - y) * xlen + (c : ℤ) - sx < (elev.length : ℤ) then
            (pyFloat? (elev.getD ((idx : ℤ) + ((r : ℤ) - y) * xlen + (c : ℤ) - sx).toNat [])).getD 0
          else cellOf arr r c := by
  intro n
  induction n with
  | zero =>
    intro y sx arr idx elev hr _ _ _ _ _ _
    refine ⟨arr, by simp [fillRowsN], hr, ?_⟩
    intro r c _
    rw [if_neg]
    rintro ⟨h1, h2, _⟩
    omega
  | succ n ih =>
    intro y sx arr idx elev hr hy0 hyn hsx0 hsxW hidx hparse
    have hyH : y < (H : ℤ) := by omega
    have hfuel : sx + ((xlen - sx).toNat : ℤ) ≤ xlen := by omega
    obtain ⟨arr1, hres1, hr1, hcell1⟩ :=
      @fillRowN_ok H xlen (xlen - sx).toNat sx y arr idx elev hr hy0 hyH hsx0 hfuel
        (fun j hj1 hj2 => hparse j hj1 (by simp only [walkLen] at *; omega)) hidx
    have hidx1 : min elev.length (idx + (xlen - sx).toNat) ≤ elev.length := by omega
    obtain ⟨arr2, hres2, hr2, hcell2⟩ :=
      ih (y + 1) 0 arr1 (min elev.length (idx + (xlen - sx).toNat)) elev hr1
        (by omega) (by omega) le_rfl hxl hidx1
        (fun j hj1 hj2 => hparse j (by omega) (by simp only [walkLen] at hj2 ⊢; omega))
    refine ⟨arr2, ?_, hr2, ?_⟩
    · simp only [fillRowsN, hres1, okBind]
      exact hres2
    · intro r c hc
      rw [hcell2 r c hc, hcell1 r c]
      have hcx : (c : ℤ) < xlen := by omega
      have hrel : ((r : ℤ) - y) * xlen = ((r : ℤ) - (y + 1)) * xlen + xlen := by ring
      have hM0 : (y + 1 : ℤ) ≤ (r : ℤ) → 0 ≤ ((r : ℤ) - (y + 1)) * xlen :=
        fun hge => mul_nonneg (by omega) hxl
      have hMz : r = y.toNat → ((r : ℤ) - y) * xlen = 0 := fun hrz => by
        rw [show ((r : ℤ) - y) = 0 from by omega]
        ring
      split
      · rename_i h2
        split
        · rename_i ht
          have hpe : (((min elev.length (idx + (xlen - sx).toNat) : ℕ) : ℤ) +
              ((r : ℤ) - (y + 1)) * xlen + (c : ℤ) - 0).toNat =
              ((idx : ℤ) + ((r : ℤ) - y) * xlen + (c : ℤ) - sx).toNat := by omega
          rw [hpe]
        · rename_i ht
          exfalso
          omega
      · rename_i h2
        split
        · rename_i h1
          split
          · rename_i ht
            have hpe : idx + (c - sx.toNat) =
                ((idx : ℤ) + ((r : ℤ) - y) * xlen + (c : ℤ) - sx).toNat := by
              have hz := hMz h1.1
              omega
            rw [hpe]
          · rename_i ht
            exfalso
            have hz := hMz h1.1
            omega
        · rename_i h1
          split
          · rename_i ht
            exfalso
            by_cases hrz : r = y.toNat
            · have hz := hMz hrz
              omega
            · omega
          · rename_i ht
            rfl

theorem cellOf_replicate (H W r c : ℕ) :
    cellOf (List.replicate H (List.replicate W ((-9999 : ℚ)))) r c = -9999 := by
  simp only [cellOf, List.getD_eq_getElem?_getD, List.getElem?_replicate]
  by_cases hr : r < H
  · simp only [if_pos hr, Option.getD_some]
    by_cases hc : c < W
    · simp [if_pos hc]
    · simp [if_neg hc]
  · simp [if_neg hr]

/-- C2.  For every tile whose start point lies within its grid and whose
samples all parse, the builder returns an array of exactly the declared
`(grid_length.y, grid_length.x)` shape; writing starts at row `start_point.y`
and column `start_point.x`, subsequent rows start at column 0, and the cell at
`(r, c)` holds the sample at linear position `(r − start_point.y) ·
grid_length.x + c − start_point.x` when that position exists, the no-data
sentinel `-9999` otherwise (so filling stops silently when samples run out). -/
theorem c2_tile_array_builder (content : Content)
    (hsx0 : 0 ≤ content.meta_data.start_point.x)
    (hsxW : content.meta_data.start_point.x ≤ content.meta_data.grid_length.x)
    (hsy0 : 0 ≤ content.meta_data.start_point.y)
    (hsyH : content.meta_data.start_point.y ≤ content.meta_data.grid_length.y)
    (hparse : ∀ s ∈ content.elevation_items, (pyFloat? s).isSome) :
    ∃ entry, getNpArray content = .ok entry ∧
      entry.mesh_code = content.mesh_code ∧
      entry.np_array.length = content.meta_data.grid_length.y.toNat ∧
      (∀ row ∈ entry.np_array, row.length = content.meta_data.grid_length.x.toNat) ∧
      ∀ r c : ℕ, r < content.meta_data.grid_length.y.toNat →
        c < content.meta_data.grid_length.x.toNat →
        cellOf entry.np_array r c =
          if 0 ≤ ((r : ℤ) - content.meta_data.start_point.y) *
                content.meta_data.grid_length.x + (c : ℤ) -
                content.meta_data.start_point.x ∧
              ((r : ℤ) - content.meta_data.start_point.y) *
                content.meta_data.grid_length.x + (c : ℤ) -
                content.meta_data.start_point.x <
                (content.elevation_items.length : ℤ) then
            (pyFloat? (content.elevation_items.getD
              (((r : ℤ) - content.meta_data.start_point.y) *
                content.meta_data.grid_length.x + (c : ℤ) -
                content.meta_data.start_point.x).toNat [])).getD 0
          else -9999 := by
  set md := content.meta_data with hmd
  set xlen := md.grid_length.x with hxlen
  set ylen := md.grid_length.y with hylen
  set spx := md.start_point.x with hspx
  set spy := md.start_point.y with hspy
  set elev := content.elevation_items with helev
  have hxl : 0 ≤ xlen := le_trans hsx0 hsxW
  have hyl : 0 ≤ ylen := le_trans hsy0 hsyH
  have hrect0 : rect (List.replicate ylen.toNat (List.replicate xlen.toNat (-9999 : ℚ)))
      ylen.toNat xlen.toNat := by
    constructor
    · simp
    · intro row hrow
      rw [List.eq_of_mem_replicate hrow]
      simp
  obtain ⟨arr2, hres, hrect2, hcells⟩ :=
    @fillRowsN_ok ylen.toNat xlen hxl (ylen - spy).toNat spy spx
      (List.replicate ylen.toNat (List.replicate xlen.toNat (-9999 : ℚ))) 0 elev hrect0
      hsy0 (by omega) hsx0 hsxW (Nat.zero_le _)
      (by
        intro j hj1 hj2
        have hjl : j < elev.length := by omega
        have hmem : elev.getD j [] ∈ elev := by
          rw [List.getD_eq_getElem?_getD, List.getElem?_eq_getElem hjl]
          exact List.getElem_mem hjl
        exact hparse _ hmem)
  refine ⟨⟨content.mesh_code, arr2⟩, ?_, rfl, hrect2.1, hrect2.2, ?_⟩
  · simp only [getNpArray, ← hmd, ← hxlen, ← hylen, ← hspx, ← hspy, ← helev]
    rw [if_neg (by omega)]
    simp only [hres, okBind]
    rfl
  · intro r c hr hc
    rw [hcells r c hc]
    have hA : r < spy.toNat → ((r : ℤ) - spy) * xlen ≤ -xlen := by
      intro hlt
      have h1 : (r : ℤ) - spy ≤ -1 := by omega
      have := mul_le_mul_of_nonneg_right h1 hxl
      linarith
    have hB : spy.toNat ≤ r → 0 ≤ ((r : ℤ) - spy) * xlen := by
      intro hge
      exact mul_nonneg (by omega) hxl
    split
    · rename_i hcnd
      split
      · rename_i ht
        have hpe : (((0 : ℕ) : ℤ) + ((r : ℤ) - spy) * xlen + (c : ℤ) - spx).toNat =
            (((r : ℤ) - spy) * xlen + (c : ℤ) - spx).toNat := by omega
        rw [hpe]
      · rename_i ht
        exfalso
        omega
    · rename_i hcnd
      split
      · rename_i ht
        exfalso
        by_cases hrz : r < spy.toNat
        · have := hA hrz
          omega
        · have := hB (by omega)
          omega
      · rename_i ht
        exact cellOf_replicate _ _ _ _

/-- The spec's own builder example: grid `{x:3, y:2}`, start `{x:1, y:0}`,
samples `"1" "2" "3" "4"`. -/
def c2content : Content :=
  ⟨644132,
   ⟨644132, ⟨35, 139⟩, ⟨36, 140⟩, ⟨3, 2⟩, ⟨1, 0⟩, ⟨1/3, -1/2⟩⟩,
   [['1'], ['2'], ['3'], ['4']]⟩

/-- Witness for C2: at the spec's example the builder yields
`[[-9999, 1, 2], [3, 4, -9999]]`, and the characterization theorem applies. -/
theorem c2_tile_array_builder_witness :
    getNpArray c2content = .ok ⟨644132, [[-9999, 1, 2], [3, 4, -9999]]⟩ ∧
    (∃ entry, getNpArray c2content = .ok entry ∧
      entry.mesh_code = c2content.mesh_code ∧
      entry.np_array.length = c2content.meta_data.grid_length.y.toNat ∧
      (∀ row ∈ entry.np_array, row.length = c2content.meta_data.grid_length.x.toNat) ∧
      ∀ r c : ℕ, r < c2content.meta_data.grid_length.y.toNat →
        c < c2content.meta_data.grid_length.x.toNat →
        cellOf entry.np_array r c =
          if 0 ≤ ((r : ℤ) - c2content.meta_data.start_point.y) *
                c2content.meta_data.grid_length.x + (c : ℤ) -
                c2content.meta_data.start_point.x ∧
              ((r : ℤ) - c2content.meta_data.start_point.y) *
                c2content.meta_data.grid_length.x + (c : ℤ) -
                c2content.meta_data.start_point.x <
                (c2content.elevation_items.length : ℤ) then
            (pyFloat? (c2content.elevation_items.getD
              (((r : ℤ) - c2content.meta_data.start_point.y) *
                c2content.meta_data.grid_length.x + (c : ℤ) -
                c2content.meta_data.start_point.x).toNat [])).getD 0
          else -9999) :=
  ⟨by decide,
   c2_tile_array_builder c2content (by decide) (by decide) (by decide) (by decide)
     (by decide)⟩

/-! ### C9: unparseable samples -/

theorem fillRowN_error {H : ℕ} {xlen : ℤ} :
    ∀ (n : ℕ) (x y : ℤ) (arr : List (List ℚ)) (idx : ℕ) (elev : List Str),
    rect arr H xlen.toNat →
    0 ≤ y → y < (H : ℤ) →
    0 ≤ x → x + n ≤ xlen →
    idx ≤ elev.length →
    (∃ j : ℕ, idx ≤ j ∧ j < min elev.length (idx + n) ∧
      pyFloat? (elev.getD j []) = none) →
    fillRowN n x y arr idx elev = .error .valueError := by
  intro n
  induction n with
  | zero =>
    intro x y arr idx elev _ _ _ _ _ hidx hbad
    obtain ⟨j, hj1, hj2, _⟩ := hbad
    exact absurd hj2 (by omega)
  | succ n ih =>
    intro x y arr idx elev hr hy0 hyH hx0 hxn hidx hbad
    obtain ⟨j, hj1, hj2, hjbad⟩ := hbad
    have hlt : idx < elev.length := by omega
    have hsome : elev[idx]? = some (elev.getD idx []) := by
      rw [List.getElem?_eq_getElem hlt]
      simp [List.getD_eq_getElem?_getD, List.getElem?_eq_getElem hlt]
    by_cases hbad0 : pyFloat? (elev.getD idx []) = none
    · simp only [fillRowN, hsome, hbad0]
    · obtain ⟨v, hv⟩ := Option.ne_none_iff_exists'.1 hbad0
      obtain ⟨arr1, hset, hr1, _⟩ := pySet2_ok hr hy0 hyH hx0 (by omega) v
      have hjne : j ≠ idx := fun he => hbad0 (he ▸ hjbad)
      have hrec := ih (x + 1) y arr1 (idx + 1) elev hr1 hy0 hyH (by omega) (by omega)
        (by omega) ⟨j, by omega, by omega, hjbad⟩
      simp only [fillRowN, hsome, hv, hset, hrec]

theorem fillRowsN_error {H : ℕ} {xlen : ℤ} (hxl : 0 ≤ xlen) :
    ∀ (n : ℕ) (y sx : ℤ) (arr : List (List ℚ)) (idx : ℕ) (elev : List Str),
    rect arr H xlen.toNat →
    0 ≤ y → y + n ≤ (H : ℤ) →
    0 ≤ sx → sx ≤ xlen →
    idx ≤ elev.length →
    (∃ j : ℕ, idx ≤ j ∧ j < min elev.length (idx + walkLen n sx xlen) ∧
      pyFloat? (elev.getD j []) = none) →
    fillRowsN n y sx xlen arr idx elev = .error .valueError := by
  intro n
  induction n with
  | zero =>
    intro y sx arr idx elev _ _ _ _ _ hidx hbad
    obtain ⟨j, hj1, hj2, _⟩ := hbad
    simp only [walkLen] at hj2
    exact absurd hj2 (by omega)
  | succ n ih =>
    intro y sx arr idx elev hr hy0 hyn hsx0 hsxW hidx hbad
    have hyH : y < (H : ℤ) := by omega
    have hfuel : sx + ((xlen - sx).toNat : ℤ) ≤ xlen := by omega
    by_cases hrow : ∃ j : ℕ, idx ≤ j ∧ j < min elev.length (idx + (xlen - sx).toNat) ∧
        pyFloat? (elev.getD j []) = none
    · have herr := @fillRowN_error H xlen (xlen - sx).toNat sx y arr idx elev hr
        hy0 hyH hsx0 hfuel hidx hrow
      simp [fillRowsN, herr, errBind]
    · push_neg at hrow
      have hparse : ∀ j : ℕ, idx ≤ j → j < min elev.length (idx + (xlen - sx).toNat) →
          (pyFloat? (elev.getD j [])).isSome := fun j h1 h2 =>
        Option.ne_none_iff_isSome.1 (hrow j h1 h2)
      obtain ⟨arr1, hres1, hr1, _⟩ :=
        @fillRowN_ok H xlen (xlen - sx).toNat sx y arr idx elev hr hy0 hyH hsx0
          hfuel hparse hidx
      obtain ⟨j, hj1, hj2, hjbad⟩ := hbad
      have hjout : ¬(j < min elev.length (idx + (xlen - sx).toNat)) := fun hin =>
        hrow j hj1 hin hjbad
      have hrec := ih (y + 1) 0 arr1 (min elev.length (idx + (xlen - sx).toNat)) elev hr1
        (by omega) (by omega) le_rfl hxl (by omega)
        ⟨j, by omega, by simp only [walkLen] at hj2 ⊢; omega, hjbad⟩
      simp only [fillRowsN, hres1, okBind]
      exact hrec

theorem walkLen_cast {sx xlen : ℤ} (hsx0 : 0 ≤ sx) (hsxW : sx ≤ xlen)
    {n : ℕ} (hn : 0 < n) : (walkLen n sx xlen : ℤ) = n * xlen - sx := by
  cases n with
  | zero => omega
  | succ n =>
    have h1 : ((xlen - sx).toNat : ℤ) = xlen - sx := by omega
    have h2 : ((xlen.toNat : ℕ) : ℤ) = xlen := by omega
    simp only [walkLen, walkLen_zero_start]
    push_cast
    rw [h1, h2]
    ring

/-- C9 (amended).  Building the tile array fails — with the unhandled
`ValueError` of `float(…)`, the failure the spec calls `MalformedInputError` —
whenever an unparseable sample sits at an index that the grid walk reaches,
i.e. an index below both the sample count and the number of walked cells
`(grid_length.y − start_point.y) · grid_length.x − start_point.x`.  (A bad
sample beyond the walked range is never touched; see the counterexample.) -/
theorem c9_malformed_sample (content : Content)
    (hsx0 : 0 ≤ content.meta_data.start_point.x)
    (hsxW : content.meta_data.start_point.x ≤ content.meta_data.grid_length.x)
    (hsy0 : 0 ≤ content.meta_data.start_point.y)
    (hsyH : content.meta_data.start_point.y ≤ content.meta_data.grid_length.y)
    (hbad : ∃ i : ℕ, (i : ℤ) <
        (content.meta_data.grid_length.y - content.meta_data.start_point.y) *
          content.meta_data.grid_length.x - content.meta_data.start_point.x ∧
      i < content.elevation_items.length ∧
      pyFloat? (content.elevation_items.getD i []) = none) :
    getNpArray content = .error .valueError := by
  set md := content.meta_data with hmd
  set xlen := md.grid_length.x with hxlen
  set ylen := md.grid_length.y with hylen
  set spx := md.start_point.x with hspx
  set spy := md.start_point.y with hspy
  set elev := content.elevation_items with helev
  have hxl : 0 ≤ xlen := le_trans hsx0 hsxW
  have hyl : 0 ≤ ylen := le_trans hsy0 hsyH
  obtain ⟨i, hiw, hil, hibad⟩ := hbad
  have hrect0 : rect (List.replicate ylen.toNat (List.replicate xlen.toNat (-9999 : ℚ)))
      ylen.toNat xlen.toNat := by
    constructor
    · simp
    · intro row hrow
      rw [List.eq_of_mem_replicate hrow]
      simp
  have hn : 0 < (ylen - spy).toNat := by
    rcases Nat.eq_zero_or_pos (ylen - spy).toNat with h0 | hpos
    · exfalso
      have : ((ylen - spy).toNat : ℤ) = 0 := by rw [h0]; rfl
      have hz : ylen - spy = 0 := by omega
      rw [show (ylen - spy) = 0 from hz, zero_mul] at hiw
      omega
    · exact hpos
  have hwl : (walkLen (ylen - spy).toNat spx xlen : ℤ) = ((ylen - spy).toNat : ℤ) * xlen - spx :=
    walkLen_cast hsx0 hsxW hn
  have hcast : ((ylen - spy).toNat : ℤ) = ylen - spy := by omega
  have herr := @fillRowsN_error ylen.toNat xlen hxl (ylen - spy).toNat spy spx
    (List.replicate ylen.toNat (List.replicate xlen.toNat (-9999 : ℚ))) 0 elev hrect0
    hsy0 (by omega) hsx0 hsxW (Nat.zero_le _)
    ⟨i, Nat.zero_le _, by rw [hcast] at hwl; omega, hibad⟩
  simp only [getNpArray, ← hmd, ← hxlen, ← hylen, ← hspx, ← hspy, ← helev]
  rw [if_neg (by omega)]
  simp [herr, errBind]

/-- A tile whose declared grid is `1 × 1` with two samples, the second of
which (`"abc"`) does not parse; the walk stops after one sample and never
reaches it. -/
def c9okContent : Content :=
  ⟨644132,
   ⟨644132, ⟨35, 139⟩, ⟨36, 140⟩, ⟨1, 1⟩, ⟨0, 0⟩, ⟨1, -1⟩⟩,
   [['1'], ['a', 'b', 'c']]⟩

/-- Counterexample to C9 as stated: `c9okContent` contains the unparseable
sample `"abc"`, yet building its tile array succeeds (the sample sits beyond
the walked 1 × 1 grid, so `float` is never called on it and no error of any
kind is raised). -/
theorem c9_counterexample :
    pyFloat? ['a', 'b', 'c'] = none ∧
    ['a', 'b', 'c'] ∈ c9okContent.elevation_items ∧
    getNpArray c9okContent = .ok ⟨644132, [[1]]⟩ := by decide

/-- A tile whose single walked sample `"x"` is unparseable. -/
def c9badContent : Content :=
  ⟨644132,
   ⟨644132, ⟨35, 139⟩, ⟨36, 140⟩, ⟨1, 1⟩, ⟨0, 0⟩, ⟨1, -1⟩⟩,
   [['x']]⟩

/-- Witness for C9 (amended): a reached unparseable sample aborts the build
with the unhandled `ValueError`. -/
theorem c9_malformed_sample_witness :
    getNpArray c9badContent = .error .valueError :=
  c9_malformed_sample c9badContent (by decide) (by decide) (by decide) (by decide)
    ⟨0, by decide, by decide, by decide⟩

/-! ### C3: mosaic size and the 32000 guard -/

theorem pyDivQ_error {a b : ℚ} {e : PyErr} (h : pyDivQ a b = .error e) :
    e = .zeroDivisionError := by
  unfold pyDivQ at h
  split at h
  · cases h
    rfl
  · cases h

theorem pySliceAssign_error {arr : List (List ℚ)} {rs re cs ce : ℤ}
    {src : List (List ℚ)} {e : PyErr}
    (h : pySliceAssign arr rs re cs ce src = .error e) : e = .valueError := by
  simp only [pySliceAssign] at h
  split at h
  · cases h
  · cases h
    rfl

theorem placeOne_error {b : BoundsLatLng} {yl : ℤ} {xps yps : ℚ}
    {arr : List (List ℚ)} {d : MeshData} {e : PyErr}
    (h : placeOne b yl xps yps arr d = .error e) :
    e = .valueError ∨ e = .zeroDivisionError := by
  simp only [placeOne] at h
  rcases hq1 : pyDivQ (d.lower_corner.lon - b.lower_left.lon) xps with e1 | q1 <;>
    rw [hq1] at h
  · rw [errBind] at h
    cases h
    exact Or.inr (pyDivQ_error hq1)
  · rw [okBind] at h
    rcases hq2 : pyDivQ (d.lower_corner.lat - b.lower_left.lat) (-yps) with e2 | q2 <;>
      rw [hq2] at h
    · rw [errBind] at h
      cases h
      exact Or.inr (pyDivQ_error hq2)
    · rw [okBind] at h
      exact Or.inl (pySliceAssign_error h)

theorem placeTiles_error {b : BoundsLatLng} {yl : ℤ} {xps yps : ℚ} :
    ∀ {ds : List MeshData} {arr : List (List ℚ)} {e : PyErr},
    placeTiles b yl xps yps ds arr = .error e →
    e = .valueError ∨ e = .zeroDivisionError := by
  intro ds
  induction ds with
  | nil =>
    intro arr e h
    cases h
  | cons d rest ih =>
    intro arr e h
    simp only [placeTiles] at h
    rcases hp : placeOne b yl xps yps arr d with e1 | arr2 <;> rw [hp] at h
    · rw [errBind] at h
      cases h
      exact placeOne_error hp
    · rw [okBind] at h
      exact ih h

/-- C3.  The mosaic pixel dimensions are the rounded absolute ratios of the
bounds extents to the first tile's per-axis pixel size, and assembly fails
with the image-size error (the `Exception("Image size is too large…")` raise,
the spec's `OutputTooLargeError`) exactly when either computed dimension is at
least 32000. -/
theorem c3_size_guard (dem : DemState) (xl yl : ℤ) (m : MetaData)
    (hhead : dem.meta_data_list.head? = some m)
    (hcalc : calcImageSize dem = .ok (xl, yl)) :
    (xl = pyRound |(dem.bounds_latlng.upper_right.lon -
        dem.bounds_latlng.lower_left.lon) / m.pixel_size.x| ∧
     yl = pyRound |(dem.bounds_latlng.upper_right.lat -
        dem.bounds_latlng.lower_left.lat) / m.pixel_size.y|) ∧
    ((32000 ≤ xl ∨ 32000 ≤ yl) ↔
      makeDataForGeotiff dem = .error (.imageSizeTooLarge xl yl)) := by
  have hforms : xl = pyRound |(dem.bounds_latlng.upper_right.lon -
      dem.bounds_latlng.lower_left.lon) / m.pixel_size.x| ∧
      yl = pyRound |(dem.bounds_latlng.upper_right.lat -
      dem.bounds_latlng.lower_left.lat) / m.pixel_size.y| := by
    rcases hlist : dem.meta_data_list with _ | ⟨m0, rest⟩
    · rw [hlist] at hhead
      cases hhead
    · rw [hlist] at hhead
      have hm : m0 = m := by
        simp only [List.head?_cons, Option.some.injEq] at hhead
        exact hhead
      subst hm
      simp only [calcImageSize, hlist, okBind] at hcalc
      obtain ⟨q1, hq1, hcalc⟩ := bindEqOk hcalc
      obtain ⟨q2, hq2, hcalc⟩ := bindEqOk hcalc
      obtain ⟨hne1, hv1⟩ := pyDivQ_ok hq1
      obtain ⟨hne2, hv2⟩ := pyDivQ_ok hq2
      simp only [pureIsOk, Except.ok.injEq, Prod.mk.injEq] at hcalc
      exact ⟨by rw [← hcalc.1, hv1], by rw [← hcalc.2, hv2]⟩
  refine ⟨hforms, ?_, ?_⟩
  · intro hbig
    simp only [makeDataForGeotiff, hcalc, okBind]
    rw [if_pos (by omega)]
  · intro hw
    by_contra hsmall
    push_neg at hsmall
    simp only [makeDataForGeotiff, hcalc, okBind] at hw
    rw [if_neg (by omega)] at hw
    rcases hq1 : pyDivQ (dem.bounds_latlng.upper_right.lon -
        dem.bounds_latlng.lower_left.lon) ((xl : ℚ)) with e1 | q1 <;> rw [hq1] at hw
    · rw [errBind] at hw
      cases hw
      exact absurd (pyDivQ_error hq1) (by intro hcon; cases hcon)
    · rw [okBind] at hw
      rcases hq2 : pyDivQ (dem.bounds_latlng.lower_left.lat -
          dem.bounds_latlng.upper_right.lat) ((yl : ℚ)) with e2 | q2 <;> rw [hq2] at hw
      · rw [errBind] at hw
        cases hw
        exact absurd (pyDivQ_error hq2) (by intro hcon; cases hcon)
      · rw [okBind] at hw
        rcases hp : placeTiles dem.bounds_latlng yl q1 q2
            (combineMetaAndContents dem.meta_data_list dem.np_array_list)
            (List.replicate yl.toNat (List.replicate xl.toNat (-9999 : ℚ))) with e3 | arr
          <;> rw [hp] at hw
        · rw [errBind] at hw
          cases hw
          rcases placeTiles_error hp with hcon | hcon <;> cases hcon
        · rw [okBind] at hw
          cases hw

/-- The single tile of the small C3 witness batch. -/
def c3meta1 : MetaData := ⟨111111, ⟨0, 0⟩, ⟨1, 1⟩, ⟨1, 1⟩, ⟨0, 0⟩, ⟨1, -1⟩⟩

/-- A batch whose mosaic is 1 × 1. -/
def c3small : DemState := ⟨⟨⟨0, 0⟩, ⟨1, 1⟩⟩, [c3meta1], []⟩

/-- The single tile of the too-large C3 witness batch. -/
def c3meta2 : MetaData := ⟨111111, ⟨0, 0⟩, ⟨1, 32000⟩, ⟨32000, 1⟩, ⟨0, 0⟩, ⟨1, -1⟩⟩

/-- A batch whose computed mosaic width is exactly 32000. -/
def c3big : DemState := ⟨⟨⟨0, 0⟩, ⟨1, 32000⟩⟩, [c3meta2], []⟩

/-- Witness for C3: a 1 × 1 mosaic does not raise the size error, and a batch
whose computed width is exactly 32000 fails with it. -/
theorem c3_size_guard_witness :
    ((32000 ≤ (1 : ℤ) ∨ 32000 ≤ (1 : ℤ)) ↔
      makeDataForGeotiff c3small = .error (.imageSizeTooLarge 1 1)) ∧
    makeDataForGeotiff c3big = .error (.imageSizeTooLarge 32000 1) :=
  ⟨(c3_size_guard c3small 1 1 c3meta1 (by decide) (by decide)).2,
   (c3_size_guard c3big 32000 1 c3meta2 (by decide) (by decide)).2.mp
     (Or.inl (by decide))⟩

/-! ### The mosaic assembler (C1 and C8) -/

theorem length_mapIdxFrom {α : Type} (f : ℕ → α → α) :
    ∀ (i : ℕ) (l : List α), (mapIdxFrom f i l).length = l.length := by
  intro i l
  induction l generalizing i with
  | nil => rfl
  | cons a t ih => simp [mapIdxFrom, ih]

theorem getElem?_mapIdxFrom {α : Type} (f : ℕ → α → α) :
    ∀ (i : ℕ) (l : List α) (j : ℕ),
    (mapIdxFrom f i l)[j]? = (l[j]?).map (f (i + j)) := by
  intro i l
  induction l generalizing i with
  | nil => intro j; simp [mapIdxFrom]
  | cons a t ih =>
    intro j
    cases j with
    | zero => simp [mapIdxFrom]
    | succ j =>
      simp only [mapIdxFrom, List.getElem?_cons_succ, ih (i + 1) j]
      have he : i + 1 + j = i + (j + 1) := by omega
      rw [he]

theorem mem_mapIdxFrom {α : Type} {f : ℕ → α → α} :
    ∀ {i : ℕ} {l : List α} {a : α}, a ∈ mapIdxFrom f i l →
    ∃ j b, l[j]? = some b ∧ a = f (i + j) b := by
  intro i l
  induction l generalizing i with
  | nil => intro a ha; cases ha
  | cons x t ih =>
    intro a ha
    rcases List.mem_cons.1 ha with rfl | hmem
    · exact ⟨0, x, by simp, by simp⟩
    · obtain ⟨j, b, hj, hab⟩ := ih hmem
      exact ⟨j + 1, b, by simpa using hj, by rw [hab]; congr 1; omega⟩

theorem setRegion_rect {arr : List (List ℚ)} {H W : ℕ} (hr : rect arr H W)
    (src : List (List ℚ)) (rs cs t0 t1 s0 s1 : ℕ) :
    rect (setRegion arr rs cs t0 t1 s0 s1 src) H W := by
  constructor
  · rw [setRegion, length_mapIdxFrom, hr.1]
  · intro row hrow
    obtain ⟨j, b, hj, hrow2⟩ := mem_mapIdxFrom hrow
    have hbW : b.length = W := hr.2 b (List.getElem?_mem hj)
    rw [hrow2]
    split
    · rw [length_mapIdxFrom, hbW]
    · exact hbW

theorem cellOf_setRegion {arr : List (List ℚ)} {H W : ℕ} (hr : rect arr H W)
    (src : List (List ℚ)) (rs cs t0 t1 s0 s1 : ℕ) {r c : ℕ} (hrH : r < H) (hcW : c < W) :
    cellOf (setRegion arr rs cs t0 t1 s0 s1 src) r c =
      if rs ≤ r ∧ r < rs + t0 ∧ cs ≤ c ∧ c < cs + t1 then
        (src.getD (if s0 = 1 then 0 else r - rs) []).getD
          (if s1 = 1 then 0 else c - cs) (cellOf arr r c)
      else cellOf arr r c := by
  have hrlen : r < arr.length := by
    have h1 := hr.1
    omega
  have harr : arr[r]? = some (arr[r]) := List.getElem?_eq_getElem hrlen
  have hrowW : (arr[r]).length = W := hr.2 _ (List.getElem_mem hrlen)
  have hclen : c < (arr[r]).length := by omega
  have hcell : cellOf arr r c = (arr[r])[c] := by
    rw [cellOf_eq_row hrlen]
    simp [List.getD_eq_getElem?_getD, List.getElem?_eq_getElem hclen]
  simp only [cellOf, List.getD_eq_getElem?_getD, setRegion, getElem?_mapIdxFrom, harr,
    Nat.zero_add, Option.map_some', Option.getD_some]
  split
  · rename_i hrow
    simp only [getElem?_mapIdxFrom, List.getElem?_eq_getElem hclen, Option.map_some',
      Option.getD_some, Nat.zero_add]
    by_cases hcol : cs ≤ c ∧ c < cs + t1
    · rw [if_pos hcol,
        if_pos (show rs ≤ r ∧ r < rs + t0 ∧ cs ≤ c ∧ c < cs + t1 from
          ⟨hrow.1, hrow.2, hcol.1, hcol.2⟩)]
    · rw [if_neg hcol, if_neg (fun h => hcol ⟨h.2.2.1, h.2.2.2⟩)]
  · rename_i hrow
    rw [if_neg (fun h => hrow ⟨h.1, h.2.1⟩)]

theorem normIdx_of_nonneg {len : ℕ} {i : ℤ} (h0 : 0 ≤ i) (hl : i ≤ (len : ℤ)) :
    normIdx len i = i.toNat := by
  unfold normIdx
  rw [if_neg (by omega)]
  omega

theorem pySliceAssign_fit {arr src : List (List ℚ)} {H W : ℕ} (hr : rect arr H W)
    (hH : 0 < H) {rs cs : ℤ} {s0 s1 : ℕ} (hs0 : 0 < s0) (hs1 : 0 < s1)
    (hsrc : src.length = s0) (hsrcr : ∀ row ∈ src, row.length = s1)
    (hrs : 0 ≤ rs) (hre : rs + s0 ≤ (H : ℤ)) (hcs : 0 ≤ cs) (hce : cs + s1 ≤ (W : ℤ)) :
    ∃ out, pySliceAssign arr rs (rs + s0) cs (cs + s1) src = .ok out ∧ rect out H W ∧
      ∀ r c : ℕ, r < H → c < W →
        cellOf out r c =
          if rs.toNat ≤ r ∧ r < rs.toNat + s0 ∧ cs.toNat ≤ c ∧ c < cs.toNat + s1 then
            cellOf src (r - rs.toNat) (c - cs.toNat)
          else cellOf arr r c := by
  have hW0 : (arr.headD []).length = W := by
    rcases harr : arr with _ | ⟨row0, rest⟩
    · exfalso
      have := hr.1
      rw [harr] at this
      simp at this
      omega
    · have := hr.2 row0 (by rw [harr]; exact List.mem_cons_self _ _)
      simp [this]
  have hn1 : normIdx arr.length rs = rs.toNat := by
    rw [hr.1]
    exact normIdx_of_nonneg hrs (by omega)
  have hn2 : normIdx arr.length (rs + s0) = rs.toNat + s0 := by
    rw [hr.1, normIdx_of_nonneg (by omega) hre]
    omega
  have hn3 : normIdx (arr.headD []).length cs = cs.toNat := by
    rw [hW0]
    exact normIdx_of_nonneg hcs (by omega)
  have hn4 : normIdx (arr.headD []).length (cs + s1) = cs.toNat + s1 := by
    rw [hW0, normIdx_of_nonneg (by omega) hce]
    omega
  have hW1 : (src.headD []).length = s1 := by
    rcases hsrc2 : src with _ | ⟨srow, srest⟩
    · exfalso
      rw [hsrc2] at hsrc
      simp at hsrc
      omega
    · have := hsrcr srow (by rw [hsrc2]; exact List.mem_cons_self _ _)
      simp [this]
  refine ⟨setRegion arr rs.toNat cs.toNat s0 s1 s0 s1 src, ?_, setRegion_rect hr _ _ _ _ _ _ _, ?_⟩
  · simp only [pySliceAssign, hn1, hn2, hn3, hn4, hsrc, hW1]
    rw [if_pos (show (s0 = rs.toNat + s0 - rs.toNat ∨ s0 = 1) ∧
        (s1 = cs.toNat + s1 - cs.toNat ∨ s1 = 1) from
      ⟨Or.inl (by omega), Or.inl (by omega)⟩)]
    have ht0 : rs.toNat + s0 - rs.toNat = s0 := by omega
    have ht1 : cs.toNat + s1 - cs.toNat = s1 := by omega
    rw [ht0, ht1]
  · intro r c hrH hcW
    rw [cellOf_setRegion hr src rs.toNat cs.toNat s0 s1 s0 s1 hrH hcW]
    split
    · rename_i hin
      have hi : (if s0 = 1 then 0 else r - rs.toNat) = r - rs.toNat := by
        split
        · omega
        · rfl
      have hj : (if s1 = 1 then 0 else c - cs.toNat) = c - cs.toNat := by
        split
        · omega
        · rfl
      rw [hi, hj]
      have hilen : r - rs.toNat < src.length := by omega
      have hsome : src[r - rs.toNat]? = some (src[r - rs.toNat]) :=
        List.getElem?_eq_getElem hilen
      have hrW2 : (src[r - rs.toNat]).length = s1 :=
        hsrcr _ (List.getElem_mem hilen)
      have hjlen : c - cs.toNat < (src[r - rs.toNat]).length := by omega
      rw [show src.getD (r - rs.toNat) [] = src[r - rs.toNat] from by
        simp [List.getD_eq_getElem?_getD, hsome]]
      rw [cellOf_eq_row hilen]
      simp [List.getD_eq_getElem?_getD, List.getElem?_eq_getElem hjlen]
    · rfl

theorem placeOne_eq (b : BoundsLatLng) (yl : ℤ) (xps yps : ℚ)
    (arr : List (List ℚ)) (d : MeshData) (hx : xps ≠ 0) (hy : yps ≠ 0) :
    placeOne b yl xps yps arr d =
      pySliceAssign arr (tileRowStart b yl yps d)
        (tileRowStart b yl yps d + d.grid_length.y)
        (tileColStart b xps d)
        (tileColStart b xps d + d.grid_length.x) d.np_array := by
  have hy' : (-yps) ≠ 0 := neg_ne_zero.mpr hy
  simp only [placeOne, pyDivQ, if_neg hx, if_neg hy', okBind]
  rfl

theorem placeOne_fit {b : BoundsLatLng} {yl : ℤ} {xps yps : ℚ}
    {arr : List (List ℚ)} {d : MeshData} {H W : ℕ}
    (hr : rect arr H W) (hH : 0 < H)
    (hx : xps ≠ 0) (hy : yps ≠ 0)
    (hgy : 0 < d.grid_length.y) (hgx : 0 < d.grid_length.x)
    (hshape : rect d.np_array d.grid_length.y.toNat d.grid_length.x.toNat)
    (hrs : 0 ≤ tileRowStart b yl yps d)
    (hre : tileRowStart b yl yps d + d.grid_length.y ≤ (H : ℤ))
    (hcs : 0 ≤ tileColStart b xps d)
    (hce : tileColStart b xps d + d.grid_length.x ≤ (W : ℤ)) :
    ∃ out, placeOne b yl xps yps arr d = .ok out ∧ rect out H W ∧
      ∀ r c : ℕ, r < H → c < W →
        cellOf out r c =
          if coversCell b yl xps yps d r c
          then tileCellValue b yl xps yps d r c
          else cellOf arr r c := by
  have hs0 : 0 < d.grid_length.y.toNat := by omega
  have hs1 : 0 < d.grid_length.x.toNat := by omega
  have hre' : tileRowStart b yl yps d + (d.grid_length.y.toNat : ℤ) ≤ (H : ℤ) := by
    omega
  have hce' : tileColStart b xps d + (d.grid_length.x.toNat : ℤ) ≤ (W : ℤ) := by
    omega
  obtain ⟨out, hok, hrect, hcell⟩ :=
    pySliceAssign_fit hr hH hs0 hs1 hshape.1 hshape.2 hrs hre' hcs hce'
  have hgyc : ((d.grid_length.y.toNat : ℤ)) = d.grid_length.y :=
    Int.toNat_of_nonneg (by omega)
  have hgxc : ((d.grid_length.x.toNat : ℤ)) = d.grid_length.x :=
    Int.toNat_of_nonneg (by omega)
  refine ⟨out, ?_, hrect, ?_⟩
  · rw [placeOne_eq b yl xps yps arr d hx hy, ← hgyc, ← hgxc]
    exact hok
  · intro r c hrH hcW
    rw [hcell r c hrH hcW]
    by_cases hcov : tileRowStart b yl yps d ≤ (r : ℤ) ∧
        (r : ℤ) < tileRowStart b yl yps d + d.grid_length.y ∧
        tileColStart b xps d ≤ (c : ℤ) ∧
        (c : ℤ) < tileColStart b xps d + d.grid_length.x
    · have h1 : (tileRowStart b yl yps d).toNat ≤ r ∧
          r < (tileRowStart b yl yps d).toNat + d.grid_length.y.toNat ∧
          (tileColStart b xps d).toNat ≤ c ∧
          c < (tileColStart b xps d).toNat + d.grid_length.x.toNat := by omega
      have hcovb : coversCell b yl xps yps d r c = true := by
        simp only [coversCell, Bool.and_eq_true, decide_eq_true_eq]
        exact ⟨⟨⟨hcov.1, hcov.2.1⟩, hcov.2.2.1⟩, hcov.2.2.2⟩
      rw [if_pos h1, if_pos hcovb]
      have hi : r - (tileRowStart b yl yps d).toNat =
          ((r : ℤ) - tileRowStart b yl yps d).toNat := by omega
      have hj : c - (tileColStart b xps d).toNat =
          ((c : ℤ) - tileColStart b xps d).toNat := by omega
      rw [cellOf, hi, hj]
      rfl
    · have h1 : ¬((tileRowStart b yl yps d).toNat ≤ r ∧
          r < (tileRowStart b yl yps d).toNat + d.grid_length.y.toNat ∧
          (tileColStart b xps d).toNat ≤ c ∧
          c < (tileColStart b xps d).toNat + d.grid_length.x.toNat) := by omega
      have hcovb : ¬(coversCell b yl xps yps d r c = true) := by
        simp only [coversCell, Bool.and_eq_true, decide_eq_true_eq]
        rintro ⟨⟨⟨ha, hb⟩, hc⟩, hd⟩
        exact hcov ⟨ha, hb, hc, hd⟩
      rw [if_neg h1, if_neg hcovb]

theorem placeTiles_fit {b : BoundsLatLng} {yl : ℤ} {xps yps : ℚ} {H W : ℕ}
    (hH : 0 < H) (hx : xps ≠ 0) (hy : yps ≠ 0) :
    ∀ (ds : List MeshData) (arr : List (List ℚ)), rect arr H W →
    (∀ d ∈ ds, 0 < d.grid_length.y ∧ 0 < d.grid_length.x ∧
      rect d.np_array d.grid_length.y.toNat d.grid_length.x.toNat ∧
      0 ≤ tileRowStart b yl yps d ∧
      tileRowStart b yl yps d + d.grid_length.y ≤ (H : ℤ) ∧
      0 ≤ tileColStart b xps d ∧
      tileColStart b xps d + d.grid_length.x ≤ (W : ℤ)) →
    ∃ out, placeTiles b yl xps yps ds arr = .ok out ∧ rect out H W ∧
      ∀ r c : ℕ, r < H → c < W →
        cellOf out r c = ds.foldl
          (fun v d => if coversCell b yl xps yps d r c
            then tileCellValue b yl xps yps d r c else v) (cellOf arr r c) := by
  intro ds
  induction ds with
  | nil =>
    intro arr hr _
    exact ⟨arr, rfl, hr, fun r c _ _ => rfl⟩
  | cons d ds ih =>
    intro arr hr hall
    obtain ⟨hgy, hgx, hshape, hrs, hre, hcs, hce⟩ :=
      hall d (List.mem_cons_self _ _)
    obtain ⟨mid, hok1, hrect1, hcell1⟩ :=
      placeOne_fit hr hH hx hy hgy hgx hshape hrs hre hcs hce
    obtain ⟨out, hok2, hrect2, hcell2⟩ := ih mid hrect1
      (fun d2 hd2 => hall d2 (List.mem_cons_of_mem _ hd2))
    refine ⟨out, ?_, hrect2, ?_⟩
    · simp only [placeTiles, hok1, okBind, hok2]
    · intro r c hrH hcW
      rw [hcell2 r c hrH hcW, List.foldl_cons]
      congr 1
      rw [hcell1 r c hrH hcW]

instance rectDecidable (arr : List (List ℚ)) (H W : ℕ) : Decidable (rect arr H W) := by
  unfold rect
  infer_instance

theorem rect_replicate (H W : ℕ) :
    rect (List.replicate H (List.replicate W ((-9999 : ℚ)))) H W := by
  constructor
  · simp
  · intro row hrow
    rw [List.eq_of_mem_replicate hrow]
    simp

/-- C1.  For every batch whose computed mosaic has positive dimensions below
the size limit, whose recomputed per-axis pixel sizes (bounds width / mosaic
pixel width and bounds height / mosaic pixel height) are nonzero, and whose
combined tiles have positive grid lengths, arrays of the declared tile shape
and placement rectangles inside the mosaic, the assembler succeeds; the
geo-transform carries the recomputed pixel sizes, the mosaic has the computed
shape, and every cell holds the spec's mosaic value: each tile of the combined
list, in order, overwrites the cells of its placement rectangle — rows
`[height − (row_offset + tile height), height − row_offset)` with the rounded
offsets computed from the recomputed pixel sizes, columns
`[column_offset, column_offset + tile width)` — with its array entry at the
relative position, later tiles winning. -/
theorem c1_mosaic_assembler (dem : DemState) (xl yl : ℤ)
    (hcalc : calcImageSize dem = .ok (xl, yl))
    (hxl : 0 < xl) (hyl : 0 < yl)
    (hxs : xl < 32000) (hys : yl < 32000)
    (hx : (dem.bounds_latlng.upper_right.lon - dem.bounds_latlng.lower_left.lon)
      / ((xl : ℤ) : ℚ) ≠ 0)
    (hy : (dem.bounds_latlng.lower_left.lat - dem.bounds_latlng.upper_right.lat)
      / ((yl : ℤ) : ℚ) ≠ 0)
    (hall : ∀ d ∈ combineMetaAndContents dem.meta_data_list dem.np_array_list,
      0 < d.grid_length.y ∧ 0 < d.grid_length.x ∧
      rect d.np_array d.grid_length.y.toNat d.grid_length.x.toNat ∧
      0 ≤ tileRowStart dem.bounds_latlng yl
        ((dem.bounds_latlng.lower_left.lat - dem.bounds_latlng.upper_right.lat)
          / ((yl : ℤ) : ℚ)) d ∧
      tileRowStart dem.bounds_latlng yl
        ((dem.bounds_latlng.lower_left.lat - dem.bounds_latlng.upper_right.lat)
          / ((yl : ℤ) : ℚ)) d + d.grid_length.y ≤ yl ∧
      0 ≤ tileColStart dem.bounds_latlng
        ((dem.bounds_latlng.upper_right.lon - dem.bounds_latlng.lower_left.lon)
          / ((xl : ℤ) : ℚ)) d ∧
      tileColStart dem.bounds_latlng
        ((dem.bounds_latlng.upper_right.lon - dem.bounds_latlng.lower_left.lon)
          / ((xl : ℤ) : ℚ)) d + d.grid_length.x ≤ xl) :
    ∃ arr, makeDataForGeotiff dem = .ok
        ⟨[dem.bounds_latlng.lower_left.lon,
          (dem.bounds_latlng.upper_right.lon - dem.bounds_latlng.lower_left.lon)
            / ((xl : ℤ) : ℚ), 0,
          dem.bounds_latlng.upper_right.lat, 0,
          (dem.bounds_latlng.lower_left.lat - dem.bounds_latlng.upper_right.lat)
            / ((yl : ℤ) : ℚ)],
        arr, xl, yl⟩ ∧
      rect arr yl.toNat xl.toNat ∧
      ∀ r c : ℕ, r < yl.toNat → c < xl.toNat →
        cellOf arr r c = mosaicCellSpec dem.bounds_latlng yl
          ((dem.bounds_latlng.upper_right.lon - dem.bounds_latlng.lower_left.lon)
            / ((xl : ℤ) : ℚ))
          ((dem.bounds_latlng.lower_left.lat - dem.bounds_latlng.upper_right.lat)
            / ((yl : ℤ) : ℚ))
          (combineMetaAndContents dem.meta_data_list dem.np_array_list) r c := by
  have hH : 0 < yl.toNat := by omega
  have hall' : ∀ d ∈ combineMetaAndContents dem.meta_data_list dem.np_array_list,
      0 < d.grid_length.y ∧ 0 < d.grid_length.x ∧
      rect d.np_array d.grid_length.y.toNat d.grid_length.x.toNat ∧
      0 ≤ tileRowStart dem.bounds_latlng yl
        ((dem.bounds_latlng.lower_left.lat - dem.bounds_latlng.upper_right.lat)
          / ((yl : ℤ) : ℚ)) d ∧
      tileRowStart dem.bounds_latlng yl
        ((dem.bounds_latlng.lower_left.lat - dem.bounds_latlng.upper_right.lat)
          / ((yl : ℤ) : ℚ)) d + d.grid_length.y ≤ ((yl.toNat : ℕ) : ℤ) ∧
      0 ≤ tileColStart dem.bounds_latlng
        ((dem.bounds_latlng.upper_right.lon - dem.bounds_latlng.lower_left.lon)
          / ((xl : ℤ) : ℚ)) d ∧
      tileColStart dem.bounds_latlng
        ((dem.bounds_latlng.upper_right.lon - dem.bounds_latlng.lower_left.lon)
          / ((xl : ℤ) : ℚ)) d + d.grid_length.x ≤ ((xl.toNat : ℕ) : ℤ) := by
    intro d hd
    obtain ⟨h1, h2, h3, h4, h5, h6, h7⟩ := hall d hd
    exact ⟨h1, h2, h3, h4, by omega, h6, by omega⟩
  obtain ⟨out, hok, hrect, hcell⟩ := placeTiles_fit hH hx hy
    (combineMetaAndContents dem.meta_data_list dem.np_array_list)
    (List.replicate yl.toNat (List.replicate xl.toNat ((-9999 : ℚ))))
    (rect_replicate yl.toNat xl.toNat) hall'
  refine ⟨out, ?_, hrect, ?_⟩
  · have hno : ¬(xl ≥ 32000 ∨ yl ≥ 32000) := by omega
    have hxq : (((xl : ℤ) : ℚ)) ≠ 0 := by
      refine fun hq => hx ?_
      rw [hq]
      exact div_zero _
    have hyq : (((yl : ℤ) : ℚ)) ≠ 0 := by
      refine fun hq => hy ?_
      rw [hq]
      exact div_zero _
    simp only [makeDataForGeotiff, hcalc, okBind, if_neg hno, pyDivQ,
      if_neg hxq, if_neg hyq, hok, pureIsOk]
  · intro r c hrH hcW
    rw [hcell r c hrH hcW, cellOf_replicate]
    rfl

/-- The single tile metadata of the C1 witness batch: a 1 × 1 grid covering
the whole square mosaic. -/
def c1meta : MetaData := ⟨111111, ⟨35, 139⟩, ⟨36, 140⟩, ⟨1, 1⟩, ⟨0, 0⟩, ⟨1, -1⟩⟩

/-- The single elevation array of the C1 witness batch. -/
def c1np : NpEntry := ⟨111111, [[5]]⟩

/-- The C1 witness batch: one tile, mosaic 1 × 1. -/
def c1dem : DemState := ⟨⟨⟨35, 139⟩, ⟨36, 140⟩⟩, [c1meta], [c1np]⟩

/-- Witness for C1: the one-tile batch satisfies every hypothesis, the
assembler places the tile at the spec position, and the resulting mosaic is
concretely `[[5]]` with geo-transform `[139, 1, 0, 36, 0, -1]`. -/
theorem c1_mosaic_assembler_witness :
    (calcImageSize c1dem = .ok (1, 1) ∧
      (c1dem.bounds_latlng.upper_right.lon - c1dem.bounds_latlng.lower_left.lon)
        / (((1 : ℤ) : ℤ) : ℚ) ≠ 0) ∧
    (∃ arr, makeDataForGeotiff c1dem = .ok
        ⟨[c1dem.bounds_latlng.lower_left.lon,
          (c1dem.bounds_latlng.upper_right.lon - c1dem.bounds_latlng.lower_left.lon)
            / (((1 : ℤ) : ℤ) : ℚ), 0,
          c1dem.bounds_latlng.upper_right.lat, 0,
          (c1dem.bounds_latlng.lower_left.lat - c1dem.bounds_latlng.upper_right.lat)
            / (((1 : ℤ) : ℤ) : ℚ)],
        arr, 1, 1⟩ ∧
      rect arr (1 : ℤ).toNat (1 : ℤ).toNat ∧
      ∀ r c : ℕ, r < (1 : ℤ).toNat → c < (1 : ℤ).toNat →
        cellOf arr r c = mosaicCellSpec c1dem.bounds_latlng 1
          ((c1dem.bounds_latlng.upper_right.lon - c1dem.bounds_latlng.lower_left.lon)
            / (((1 : ℤ) : ℤ) : ℚ))
          ((c1dem.bounds_latlng.lower_left.lat - c1dem.bounds_latlng.upper_right.lat)
            / (((1 : ℤ) : ℤ) : ℚ))
          (combineMetaAndContents c1dem.meta_data_list c1dem.np_array_list) r c) ∧
    makeDataForGeotiff c1dem = .ok ⟨[139, 1, 0, 36, 0, -1], [[5]], 1, 1⟩ ∧
    mosaicCellSpec c1dem.bounds_latlng 1 1 (-1)
      (combineMetaAndContents c1dem.meta_data_list c1dem.np_array_list) 0 0 = 5 :=
  ⟨⟨by decide, by decide⟩,
   c1_mosaic_assembler c1dem 1 1 (by decide) (by decide) (by decide)
     (by decide) (by decide) (by decide) (by decide) (by decide),
   by decide, by decide⟩

/-! ### C8: the shape of the assembled mosaic and out-of-range placements -/

theorem pySliceAssign_rect {arr out src : List (List ℚ)} {H W : ℕ}
    {rs re cs ce : ℤ} (hr : rect arr H W)
    (h : pySliceAssign arr rs re cs ce src = .ok out) : rect out H W := by
  simp only [pySliceAssign] at h
  split at h
  · cases h
    exact setRegion_rect hr _ _ _ _ _ _ _
  · cases h

theorem placeOne_rect {b : BoundsLatLng} {yl : ℤ} {xps yps : ℚ}
    {arr out : List (List ℚ)} {d : MeshData} {H W : ℕ} (hr : rect arr H W)
    (h : placeOne b yl xps yps arr d = .ok out) : rect out H W := by
  unfold placeOne at h
  obtain ⟨q1, hq1, h⟩ := bindEqOk h
  obtain ⟨q2, hq2, h⟩ := bindEqOk h
  exact pySliceAssign_rect hr h

theorem placeTiles_rect {b : BoundsLatLng} {yl : ℤ} {xps yps : ℚ} {H W : ℕ} :
    ∀ {ds : List MeshData} {arr out : List (List ℚ)}, rect arr H W →
    placeTiles b yl xps yps ds arr = .ok out → rect out H W := by
  intro ds
  induction ds with
  | nil =>
    intro arr out hr h
    cases h
    exact hr
  | cons d ds ih =>
    intro arr out hr h
    unfold placeTiles at h
    obtain ⟨mid, hmid, h⟩ := bindEqOk h
    exact ih (placeOne_rect hr hmid) h

/-- C8 (amended).  For every batch on which the assembler succeeds, the
returned mosaic array has exactly the allocated shape — `y_length` rows of
`x_length` cells each: no tile placement ever writes outside the allocated
mosaic array, whatever its computed placement rectangle. -/
theorem c8_placement_bounds (dem : DemState) (g : GeoData)
    (h : makeDataForGeotiff dem = .ok g) :
    g.dem_array.length = g.y_length.toNat ∧
    ∀ row ∈ g.dem_array, row.length = g.x_length.toNat := by
  simp only [makeDataForGeotiff] at h
  obtain ⟨sz, hsz, h⟩ := bindEqOk h
  split at h
  · cases h
  · obtain ⟨xps, hxps, h⟩ := bindEqOk h
    obtain ⟨yps, hyps, h⟩ := bindEqOk h
    obtain ⟨arr, harr, h⟩ := bindEqOk h
    rw [pureIsOk] at h
    cases h
    have hrect : rect arr sz.2.toNat sz.1.toNat :=
      placeTiles_rect (rect_replicate sz.2.toNat sz.1.toNat) harr
    exact ⟨hrect.1, hrect.2⟩

/-- The first tile of the C8 batch: a 2 × 4 grid filling the whole mosaic. -/
def c8meta1 : MetaData := ⟨111111, ⟨35, 139⟩, ⟨37, 140⟩, ⟨2, 4⟩, ⟨0, 0⟩, ⟨1/2, -1/2⟩⟩

/-- The second tile of the C8 batch: a 2 × 1 grid whose lower corner lies one
tile height above the mosaic's upper edge, so its placement rectangle
(rows `[−2, −1)`) falls outside the mosaic. -/
def c8meta2 : MetaData := ⟨222222, ⟨75/2, 139⟩, ⟨36, 140⟩, ⟨2, 1⟩, ⟨0, 0⟩, ⟨1/2, -3/2⟩⟩

/-- The elevation array of the first C8 tile. -/
def c8np1 : NpEntry := ⟨111111, [[2, 2], [2, 2], [2, 2], [2, 2]]⟩

/-- The elevation array of the out-of-range C8 tile. -/
def c8np2 : NpEntry := ⟨222222, [[7, 8]]⟩

/-- The C8 batch: an in-range tile plus a tile whose placement rectangle lies
above the mosaic. -/
def c8state : DemState := ⟨⟨⟨35, 139⟩, ⟨37, 140⟩⟩, [c8meta1, c8meta2], [c8np1, c8np2]⟩

/-- The combined mesh data of the out-of-range C8 tile. -/
def c8tile2 : MeshData :=
  ⟨222222, ⟨75/2, 139⟩, ⟨36, 140⟩, ⟨2, 1⟩, ⟨0, 0⟩, ⟨1/2, -3/2⟩, [[7, 8]]⟩

/-- Counterexample for C8 as stated: the second tile's placement rectangle
(rows `[−2, −1)`) lies entirely outside the 2 × 4 mosaic, yet assembly neither
fails nor clips the tile — Python's negative slice indices wrap around, so the
tile's row `[7, 8]` is silently written at mosaic row 2 (counted from the top)
instead, overwriting in-range data of the first tile. -/
theorem c8_counterexample :
    (combineMetaAndContents c8state.meta_data_list c8state.np_array_list)[1]? =
      some c8tile2 ∧
    tileRowStart c8state.bounds_latlng 4
      ((c8state.bounds_latlng.lower_left.lat - c8state.bounds_latlng.upper_right.lat)
        / (((4 : ℤ) : ℤ) : ℚ)) c8tile2
      = -2 ∧
    makeDataForGeotiff c8state =
      .ok ⟨[139, 1/2, 0, 37, 0, -1/2],
        [[2, 2], [2, 2], [7, 8], [2, 2]], 2, 4⟩ := by
  refine ⟨by decide, by decide, by decide⟩

/-- Witness for C8 (amended) at the wrap-around batch itself: the assembler
succeeds and the returned array still has exactly the allocated 4 × 2 shape. -/
theorem c8_placement_bounds_witness :
    makeDataForGeotiff c8state =
      .ok ⟨[139, 1/2, 0, 37, 0, -1/2], [[2, 2], [2, 2], [7, 8], [2, 2]], 2, 4⟩ ∧
    (([[2, 2], [2, 2], [7, 8], [2, 2]] : List (List ℚ)).length = (4 : ℤ).toNat ∧
      ∀ row ∈ ([[2, 2], [2, 2], [7, 8], [2, 2]] : List (List ℚ)),
        row.length = (2 : ℤ).toNat) :=
  ⟨by decide,
   c8_placement_bounds c8state
     ⟨[139, 1/2, 0, 37, 0, -1/2], [[2, 2], [2, 2], [7, 8], [2, 2]], 2, 4⟩
     (by decide)⟩

end ConvertFgdDem
